import Mathlib

/-!
Verification development for a small embedded relational data engine
(`rdbms.py`).  The engine stores typed tabular data, enforces schema
constraints, maintains auxiliary indexes, answers a restricted SQL dialect,
and keeps a transaction log with snapshot-based rollback.

The Lean definitions below are a shallow embedding of the Python source:

* Python dynamically-typed cell values become the closed tagged union
  `Value` (integer, real, text, boolean, null).  Python `float` literals in
  this engine only ever arise from parsing decimal digit strings, so reals
  are represented exactly as rationals.
* Python `dict`s (rows, catalogs, index entry maps) become insertion-ordered
  association lists, mirroring CPython's ordered-dict semantics.
* In-place mutation plus exceptions becomes explicit state passing: each
  statement handler returns the (possibly partially mutated) state together
  with an `Except` result, mirroring exactly which mutations have happened
  before a Python exception is raised.
* Character-level string processing (`strip`, `split`, `upper`,
  `isdigit`, the hand-written regular expressions of the statement parser)
  is reproduced over `List Char`.  Unicode-only behaviours (non-ASCII
  digits and case mappings) are out of scope: the engine's grammar and the
  properties checked here are ASCII.
-/

/-- Cell values: the closed tagged union for the engine's dynamically typed
row cells.  `real` carries an exact rational; every real produced by the
engine's literal coercion is a finite decimal. -/
inductive Value where
  | int (n : Int)
  | real (q : ℚ)
  | text (s : String)
  | bool (b : Bool)
  | null
deriving DecidableEq

/-- Declared column types (`class DataType(Enum)` in the source). -/
inductive DataType where
  | INTEGER
  | TEXT
  | REAL
  | BOOLEAN
  | DATE
deriving DecidableEq

/-- Column descriptor (`@dataclass Column`). -/
structure Column where
  name : String
  data_type : DataType
  is_primary : Bool
  is_unique : Bool
  is_nullable : Bool
deriving DecidableEq

/-- A row is a Python dict from column name to value: an insertion-ordered
association list with pairwise distinct keys. -/
abbrev Row := List (String × Value)

/-- Index (`@dataclass Index`): key column names plus the entry dict from a
key tuple to the list of row positions carrying that key.  The dict is an
insertion-ordered association list, like Python's. -/
structure Index where
  column_names : List String
  entries : List (List Value × List Nat)
deriving DecidableEq

/-- Table (`@dataclass Table`).  The derived `primary_key_column` field of
the Python dataclass is always the first primary column (set in
`__post_init__`), so it is modelled as the function `primaryKeyColumn`
below instead of a stored field. -/
structure Table where
  name : String
  columns : List Column
  rows : List Row
  indexes : List (String × Index)
  next_row_id : Nat
deriving DecidableEq

/-- First primary column, as computed by `Table.__post_init__`. -/
def primaryKeyColumn (cols : List Column) : Option Column :=
  cols.find? (fun c => c.is_primary)

/-- Association-list lookup with string keys (Python `d[k]` / `d.get(k)`):
returns the value of the first (and, by the dict invariant, only) matching
key. -/
def alGet {β : Type} : List (String × β) → String → Option β
  | [], _ => none
  | (k, v) :: rest, n => if k = n then some v else alGet rest n

/-- Association-list update (Python `d[k] = v`): replaces the value in
place if the key is present, otherwise appends the new binding, preserving
insertion order exactly as a CPython dict does. -/
def alSet {β : Type} : List (String × β) → String → β → List (String × β)
  | [], k, v => [(k, v)]
  | (k0, v0) :: rest, k, v =>
    if k0 = k then (k0, v) :: rest else (k0, v0) :: alSet rest k v

/-- Row lookup with a default (Python `row.get(name, d)`). -/
def rowGetD (r : Row) (n : String) (d : Value) : Value :=
  (alGet r n).getD d

/-- Membership test (Python `name in row`). -/
def rowHas (r : Row) (n : String) : Bool :=
  (alGet r n).isSome

/-- Whitespace characters recognised by Python's `str.strip()` (ASCII
subset). -/
def pyIsSpace (c : Char) : Bool :=
  c = ' ' || c = '\t' || c = '\n' || c = '\r' || c = '\x0b' || c = '\x0c'

/-- Python `s.strip()` over a character list. -/
def lcStrip (s : List Char) : List Char :=
  ((s.dropWhile pyIsSpace).reverse.dropWhile pyIsSpace).reverse

/-- Python `s.strip("'")`: removes every leading and trailing apostrophe. -/
def lcStripQuotes (s : List Char) : List Char :=
  ((s.dropWhile (fun c => c = '\'')).reverse.dropWhile (fun c => c = '\'')).reverse

/-- Case mapping used by `str.upper()` (ASCII letters; the grammar and all
checked properties are ASCII). -/
def pyUpperL (s : List Char) : List Char :=
  s.map Char.toUpper

/-- Does `s` start with `p` (`s.startswith(p)` / regex literal match)? -/
def lcStartsWith : List Char → List Char → Bool
  | [], _ => true
  | _ :: _, [] => false
  | p :: ps, c :: cs => (p = c) && lcStartsWith ps cs

/-- Case-insensitive prefix test (regex literal match under
`re.IGNORECASE`). -/
def lcStartsWithCI : List Char → List Char → Bool
  | [], _ => true
  | _ :: _, [] => false
  | p :: ps, c :: cs => (p.toUpper = c.toUpper) && lcStartsWithCI ps cs

/-- Substring containment (Python `pat in s`). -/
def lcContains (pat : List Char) : List Char → Bool
  | [] => lcStartsWith pat []
  | c :: cs => lcStartsWith pat (c :: cs) || lcContains pat cs

/-- Python `s.split(sep, 1)` when the separator occurs: the parts around
the first occurrence; `none` when `sep` does not occur (in which case the
source's two-variable unpacking of `s.split(sep, 1)` raises
`ValueError`). -/
def lcSplitOnce (sep : List Char) : List Char → Option (List Char × List Char)
  | [] => if sep.isEmpty then some ([], []) else none
  | c :: cs =>
    if lcStartsWith sep (c :: cs) then some ([], List.drop sep.length (c :: cs))
    else (lcSplitOnce sep cs).map (fun p => (c :: p.1, p.2))

/-- Fuel-driven worker for Python `s.split(sep)` (all occurrences,
non-regex).  The fuel only bounds the recursion; `lcSplitOn` supplies
enough for the split to run to completion. -/
def lcSplitOnF (sep : List Char) : Nat → List Char → List Char → List (List Char)
  | 0, s, acc => [acc.reverse ++ s]
  | _ + 1, [], acc => [acc.reverse]
  | f + 1, c :: cs, acc =>
    if lcStartsWith sep (c :: cs) then
      acc.reverse :: lcSplitOnF sep f (List.drop sep.length (c :: cs)) []
    else lcSplitOnF sep f cs (c :: acc)

/-- Python `s.split(sep)` for a non-empty separator. -/
def lcSplitOn (sep : List Char) (s : List Char) : List (List Char) :=
  lcSplitOnF sep (s.length + 1) s []

/-- One attempted match of the regex `\s+KW\s+` starting at a whitespace
character: consume the whitespace run, require `kw` case-insensitively,
require at least one following whitespace character, and greedily consume
the trailing whitespace run.  Returns the remainder after the match. -/
def wsKwMatch (kw : List Char) (s : List Char) : Option (List Char) :=
  let s1 := s.dropWhile pyIsSpace
  if lcStartsWithCI kw s1 then
    let rest := List.drop kw.length s1
    match rest with
    | r :: _ => if pyIsSpace r then some (rest.dropWhile pyIsSpace) else none
    | [] => none
  else none

/-- Fuel-driven worker for `re.split(r'\s+KW\s+', s, flags=re.IGNORECASE)`
with `KW` a whitespace-free keyword: leftmost, non-overlapping matches. -/
def splitWsKwF (kw : List Char) : Nat → List Char → List Char → List (List Char)
  | 0, s, acc => [acc.reverse ++ s]
  | _ + 1, [], acc => [acc.reverse]
  | f + 1, c :: cs, acc =>
    if pyIsSpace c then
      match wsKwMatch kw (c :: cs) with
      | some rem => acc.reverse :: splitWsKwF kw f rem []
      | none => splitWsKwF kw f cs (c :: acc)
    else splitWsKwF kw f cs (c :: acc)

/-- The regex split `re.split(r'\s+KW\s+', s, flags=re.IGNORECASE)` used
for `JOIN`, `AND` and `OR`. -/
def splitWsKw (kw : List Char) (s : List Char) : List (List Char) :=
  splitWsKwF kw (s.length + 1) s []

/-- Statement normalisation at the top of `execute_sql`:
`sql.strip().replace("\n", " ").replace("\t", " ")`. -/
def normalizeSql (s : List Char) : List Char :=
  (lcStrip s).map (fun c => if c = '\n' then ' ' else if c = '\t' then ' ' else c)

/-- Python `str.isdigit()` for ASCII digits: non-empty and all digits. -/
def lcIsDigit (s : List Char) : Bool :=
  !s.isEmpty && s.all Char.isDigit

/-- Python `s.replace('.', '', 1)`: drop the first dot, if any. -/
def removeFirstDot : List Char → List Char
  | [] => []
  | c :: cs => if c = '.' then cs else c :: removeFirstDot cs

/-- Digit-string to natural number (`int(v)` on an all-digit string). -/
def digitsToNat (s : List Char) : Nat :=
  s.foldl (fun a c => a * 10 + (c.toNat - '0'.toNat)) 0

/-- Value of `float(v)` for a token that passes the source's
digits-with-one-dot test, as an exact rational: `intpart.fracpart` with
either part possibly empty. -/
def parseDecimal (s : List Char) : ℚ :=
  match lcSplitOnce ['.'] s with
  | some (ip, fp) =>
    mkRat (Int.ofNat (digitsToNat ip * 10 ^ fp.length + digitsToNat fp)) (10 ^ fp.length)
  | none => mkRat (Int.ofNat (digitsToNat s)) 1

/-- Literal token preprocessing shared by the INSERT value list, the UPDATE
SET clause and the WHERE right-hand side: `v.strip().strip("'")`. -/
def stripToken (v : List Char) : List Char :=
  lcStripQuotes (lcStrip v)

/-- Literal type inference, copied from `_execute_insert` (and duplicated
verbatim in `_execute_update` and `_evaluate_where`): integer if all-digit,
else real if digits-with-one-dot, else boolean if case-insensitive
TRUE/FALSE, else null if literally NULL, else text. -/
def coerceValue (v : List Char) : Value :=
  if lcIsDigit v then .int (digitsToNat v)
  else if lcIsDigit (removeFirstDot v) then .real (parseDecimal v)
  else if pyUpperL v = "TRUE".data || pyUpperL v = "FALSE".data then
    .bool (pyUpperL v = "TRUE".data)
  else if v = "NULL".data then .null
  else .text (String.mk v)

/-- Python numeric view: `bool` is a subclass of `int`, and `int`/`float`
compare and mix numerically; all three map into ℚ. -/
def toNum : Value → Option ℚ
  | .int n => some (n : ℚ)
  | .real q => some q
  | .bool b => some (if b then 1 else 0)
  | _ => none

/-- Python `==` on cell values: numeric kinds compare numerically (so
`True == 1` and `1 == 1.0`), texts compare as strings, `None == None` is
true, and any other cross-kind comparison is false. -/
def pyEq (a b : Value) : Bool :=
  match toNum a, toNum b with
  | some x, some y => x = y
  | _, _ =>
    match a, b with
    | .text s, .text t => s = t
    | .null, .null => true
    | _, _ => false

/-- Lexicographic code-point comparison of character lists (Python string
ordering). -/
def lcCmp : List Char → List Char → Ordering
  | [], [] => .eq
  | [], _ :: _ => .lt
  | _ :: _, [] => .gt
  | a :: as, b :: bs =>
    if a < b then .lt else if b < a then .gt else lcCmp as bs

/-- Rational comparison as an explicit, computable three-way compare. -/
def qCmp (a b : ℚ) : Ordering :=
  if a < b then .lt else if a = b then .eq else .gt

/-- Python `<`/`>`/`<=`/`>=` on cell values: numerics order numerically,
texts lexicographically, and every other combination (in particular
anything involving `None`) raises `TypeError`, which this embedding
surfaces as an error value. -/
def pyCmp (a b : Value) : Except String Ordering :=
  match toNum a, toNum b with
  | some x, some y => .ok (qCmp x y)
  | _, _ =>
    match a, b with
    | .text s, .text t => .ok (lcCmp s.data t.data)
    | _, _ => .error "TypeError: unsupported comparison between row values"

/-- Python truthiness of a cell value (used by `left_val or ""`). -/
def pyTruthy : Value → Bool
  | .int n => !(n = 0)
  | .real q => !(q = 0)
  | .text s => !s.isEmpty
  | .bool b => b
  | .null => false

/-- Zero-padded fractional digit block of length `k`. -/
def padZeros (s : String) (k : Nat) : String :=
  String.mk (List.replicate (k - s.length) '0') ++ s

/-- Decimal rendering of a rational, matching `str(float)` on the finite
decimals this engine produces (e.g. `5.0`, `0.1`, `2.5`): minimal digit
count, always at least one fractional digit. -/
def ratToDecimalString (q : ℚ) : String :=
  let sign := if q < 0 then "-" else ""
  let n := q.num.natAbs
  let d := q.den
  match (List.range 41).find? (fun k => 10 ^ k % d = 0) with
  | some k =>
    let scaled := n * 10 ^ k / d
    let ip := scaled / 10 ^ k
    let fp := scaled % 10 ^ k
    if k = 0 then sign ++ toString ip ++ ".0"
    else sign ++ toString ip ++ "." ++ padZeros (toString fp) k
  | none => sign ++ toString n ++ "/" ++ toString d

/-- Python `str()` of a cell value. -/
def pyStr : Value → String
  | .int n => toString n
  | .real q => ratToDecimalString q
  | .text s => s
  | .bool b => if b then "True" else "False"
  | .null => "None"

/-- The source's `str(left_val or "")`: falsy values (0, 0.0, False, empty
text, None) render as the empty string. -/
def pyStrOrEmpty (v : Value) : String :=
  if pyTruthy v then pyStr v else ""

/-- Regex atoms for the LIKE pattern: a literal character or the wildcard
dot.  The source builds its pattern as `right.replace("%", ".*")` and
hands it to `re.match`; beyond the dot-star produced from `%` and the dot,
other characters are matched literally here (the engine never constructs
other metacharacters itself). -/
inductive RTok where
  | lit (c : Char)
  | anyc
deriving DecidableEq

/-- Tokenise a LIKE-derived regex: postfix `*` marks the previous atom as
starred; a `*` with nothing to repeat is a pattern-compilation error, as in
`re`. -/
def reTokenizeF : Nat → List (RTok × Bool) → List Char → Except String (List (RTok × Bool))
  | _, acc, [] => .ok acc.reverse
  | 0, acc, rest => .ok (acc.reverse ++ rest.map (fun c => (RTok.lit c, false)))
  | f + 1, acc, c :: rest =>
    if c = '*' then
      match acc with
      | [] => .error "re.error: nothing to repeat"
      | (t, false) :: acc2 => reTokenizeF f ((t, true) :: acc2) rest
      | (_, true) :: _ => .error "re.error: multiple repeat"
    else if c = '.' then reTokenizeF f ((RTok.anyc, false) :: acc) rest
    else reTokenizeF f ((RTok.lit c, false) :: acc) rest

/-- Does an atom match one character? -/
def reBaseMatch : RTok → Char → Bool
  | .anyc, _ => true
  | .lit c, d => c = d

/-- Backtracking matcher for the tokenised pattern, anchored at the start
of the subject and free at the end (the semantics of `re.match`).  Fuel
bounds the backtracking; the wrapper supplies enough. -/
def reMatchF : Nat → List (RTok × Bool) → List Char → Bool
  | _, [], _ => true
  | 0, _, _ => false
  | _ + 1, (_, false) :: _, [] => false
  | f + 1, (t, false) :: ts, c :: cs => reBaseMatch t c && reMatchF f ts cs
  | f + 1, (t, true) :: ts, s =>
    reMatchF f ts s ||
      (match s with
       | [] => false
       | c :: cs => reBaseMatch t c && reMatchF f ((t, true) :: ts) cs)

/-- The source's `bool(re.match(pattern, subject))` for a LIKE pattern. -/
def pyReMatch (pat : List Char) (s : List Char) : Except String Bool :=
  match reTokenizeF (pat.length + 1) [] pat with
  | .error e => .error e
  | .ok toks => .ok (reMatchF ((toks.length + 1) * (s.length + 1) + 1) toks s)

/-- Operator list of `_evaluate_where`, scanned in this exact order. -/
def opListSrc : List String :=
  ["=", "!=", "<", ">", "<=", ">=", "LIKE", "IS NULL", "IS NOT NULL"]

/-- The spaced operator pattern `f" {op} "`. -/
def spacedOp (op : String) : List Char :=
  ' ' :: (op.data ++ [' '])

/-- First operator of the list whose spaced form occurs in the uppercased
condition (the `for op in operators` scan). -/
def findOp : List String → List Char → Option String
  | [], _ => none
  | op :: rest, cond =>
    if lcContains (spacedOp op) (pyUpperL cond) then some op else findOp rest cond

/-- One comparison (the tail of `_evaluate_where` after AND/OR handling).
Splitting on the spaced operator is case-sensitive while the occurrence
check is on the uppercased text, exactly as in the source, so a lower-case
`like`/`is null` keyword raises the unpacking `ValueError`. -/
def evalCmp (row : Row) (cond : List Char) : Except String Bool :=
  match findOp opListSrc cond with
  | none => .ok false
  | some op =>
    match lcSplitOnce (spacedOp op) cond with
    | none => .error "not enough values to unpack (expected 2, got 1)"
    | some (l, r) =>
      let left := lcStrip l
      let right := lcStripQuotes (lcStrip r)
      let left_val := rowGetD row (String.mk left) .null
      if op = "IS NULL" then .ok (left_val = .null)
      else if op = "IS NOT NULL" then .ok (!(left_val = .null))
      else if op = "LIKE" then
        let pat := right.flatMap (fun c => if c = '%' then ['.', '*'] else [c])
        pyReMatch pat (pyStrOrEmpty left_val).data
      else
        let right_val := coerceValue right
        if op = "=" then .ok (pyEq left_val right_val)
        else if op = "!=" then .ok (!pyEq left_val right_val)
        else if op = "<" then (pyCmp left_val right_val).map (fun o => o = .lt)
        else if op = ">" then (pyCmp left_val right_val).map (fun o => o = .gt)
        else if op = "<=" then (pyCmp left_val right_val).map (fun o => !(o = .gt))
        else if op = ">=" then (pyCmp left_val right_val).map (fun o => !(o = .lt))
        else .ok false

/-- Short-circuiting `all()` over sub-evaluations: stops at the first
false result or the first propagated exception. -/
def exAllM (f : List Char → Except String Bool) : List (List Char) → Except String Bool
  | [] => .ok true
  | p :: ps =>
    match f p with
    | .error e => .error e
    | .ok false => .ok false
    | .ok true => exAllM f ps

/-- Short-circuiting `any()` over sub-evaluations. -/
def exAnyM (f : List Char → Except String Bool) : List (List Char) → Except String Bool
  | [] => .ok false
  | p :: ps =>
    match f p with
    | .error e => .error e
    | .ok true => .ok true
    | .ok false => exAnyM f ps

/-- Fuelled body of `_evaluate_where`: strip, split on `\s+AND\s+` when
the single-spaced ` AND ` occurs in the uppercased text, else on
`\s+OR\s+`, else evaluate one comparison.  Sub-conditions produced by a
split are strictly shorter than the condition, so the wrapper's fuel always
suffices and the 0-fuel branch is unreachable. -/
def evalWhereF (row : Row) : Nat → List Char → Except String Bool
  | 0, _ => .ok false
  | f + 1, cond0 =>
    let cond := lcStrip cond0
    if lcContains " AND ".data (pyUpperL cond) then
      exAllM (evalWhereF row f) (splitWsKw "AND".data cond)
    else if lcContains " OR ".data (pyUpperL cond) then
      exAnyM (evalWhereF row f) (splitWsKw "OR".data cond)
    else evalCmp row cond

/-- The source's `_evaluate_where(row, condition)`. -/
def evaluate_where (row : Row) (cond : List Char) : Except String Bool :=
  evalWhereF row (cond.length + 1) cond

/-- Python `isinstance(value, int)`: true for ints and for booleans, since
`bool` is a subclass of `int`. -/
def isInstInt : Value → Bool
  | .int _ => true
  | .bool _ => true
  | _ => false

/-- Python `isinstance(value, (int, float))`. -/
def isInstIntFloat : Value → Bool
  | .int _ => true
  | .bool _ => true
  | .real _ => true
  | _ => false

/-- Python `isinstance(value, bool)`. -/
def isInstBool : Value → Bool
  | .bool _ => true
  | _ => false

/-- The `if value is not None` type-check chain of `_validate_row`:
INTEGER admits Python ints (including bools), REAL ints and floats,
BOOLEAN only bools; TEXT and DATE are unchecked. -/
def typeCheckCol (col : Column) (value : Value) : Except String Unit :=
  if !(value = .null) then
    match col.data_type with
    | .INTEGER =>
      if !isInstInt value then .error ("Column '" ++ col.name ++ "' expects INTEGER")
      else .ok ()
    | .REAL =>
      if !isInstIntFloat value then .error ("Column '" ++ col.name ++ "' expects REAL")
      else .ok ()
    | .BOOLEAN =>
      if !isInstBool value then .error ("Column '" ++ col.name ++ "' expects BOOLEAN")
      else .ok ()
    | _ => .ok ()
  else .ok ()

/-- Validation of one column of a candidate row against the existing rows
(the body of the `for col in table.columns` loop of `_validate_row`):
nullability, declared type, then the linear uniqueness scan with Python
`==` equality. -/
def validateCol (rows : List Row) (row : Row) (col : Column) : Except String Unit :=
  match alGet row col.name with
  | none =>
    if !col.is_nullable then .error ("Column '" ++ col.name ++ "' cannot be NULL")
    else .ok ()
  | some value =>
    match typeCheckCol col value with
    | .error e => .error e
    | .ok _ =>
      if col.is_unique && !(value = .null) then
        if rows.any (fun r => pyEq (rowGetD r col.name .null) value) then
          .error ("Duplicate value for unique column '" ++ col.name ++ "'")
        else .ok ()
      else .ok ()

/-- Column-by-column validation, stopping at the first error (the first
raised `ValueError`). -/
def validateCols (rows : List Row) (row : Row) : List Column → Except String Unit
  | [] => .ok ()
  | c :: cs =>
    match validateCol rows row c with
    | .error e => .error e
    | .ok _ => validateCols rows row cs

/-- The source's `_validate_row(table, row)`. -/
def validate_row (t : Table) (row : Row) : Except String Unit :=
  validateCols t.rows row t.columns

/-- Python `==` on index key tuples (componentwise `pyEq`), the equality a
Python dict applies to its tuple keys. -/
def pyEqList : List Value → List Value → Bool
  | [], [] => true
  | a :: as, b :: bs => pyEq a b && pyEqList as bs
  | _, _ => false

/-- The index-entry dict update `entries.setdefault(key, []).append(i)`
spelt out: append `i` to the first entry whose key equals `k` under
Python tuple equality, or add a new entry at the end (dict insertion
order). -/
def entAppend (es : List (List Value × List Nat)) (k : List Value) (i : Nat) :
    List (List Value × List Nat) :=
  match es with
  | [] => [(k, [i])]
  | (k0, l) :: rest =>
    if pyEqList k0 k then (k0, l ++ [i]) :: rest else (k0, l) :: entAppend rest k i

/-- Positions stored under key `k` (`entries.get(k, [])` with Python tuple
equality). -/
def entLookup (es : List (List Value × List Nat)) (k : List Value) : List Nat :=
  match es with
  | [] => []
  | (k0, l) :: rest => if pyEqList k0 k then l else entLookup rest k

/-- Index key of a row, as `SimpleRDBMS._rebuild_index` and the insert
path compute it: `tuple(row[col] for col in column_names if col in row)`
— columns absent from the row are skipped. -/
def rowKeyF (row : Row) (cols : List String) : List Value :=
  (cols.filter (fun c => rowHas row c)).map (fun c => rowGetD row c .null)

/-- Enumerated fold of `SimpleRDBMS._rebuild_index`'s loop body. -/
def rebuildAux (cols : List String) :
    List Row → Nat → List (List Value × List Nat) → List (List Value × List Nat)
  | [], _, es => es
  | r :: rs, i, es => rebuildAux cols rs (i + 1) (entAppend es (rowKeyF r cols) i)

/-- Entries of a fully rebuilt index over the given rows. -/
def rebuildEntries (rows : List Row) (cols : List String) : List (List Value × List Nat) :=
  rebuildAux cols rows 0 []

/-- The source's `SimpleRDBMS._rebuild_index(table_name, index)`: clear
and repopulate from the current rows. -/
def rebuild_index (rows : List Row) (idx : Index) : Index :=
  { idx with entries := rebuildEntries rows idx.column_names }

/-- Rebuild every index of a table (the loops in `_execute_update` and
`_execute_delete`). -/
def rebuildTableIndexes (t : Table) : Table :=
  { t with indexes := t.indexes.map (fun ni => (ni.1, rebuild_index t.rows ni.2)) }

/-- Index key as `Table._rebuild_index` computes it — without the
membership filter, so a row lacking one of the key columns raises
`KeyError` (evaluated left to right). -/
def rowKeyStrict (row : Row) : List String → Except String (List Value)
  | [] => .ok []
  | c :: cs =>
    match alGet row c with
    | none => .error ("KeyError: '" ++ c ++ "'")
    | some v => (rowKeyStrict row cs).map (fun vs => v :: vs)

/-- The loop of `Table._rebuild_index`: on a `KeyError` the entries built
so far remain in the index (the dict was mutated in place). -/
def rebuildStrictAux (cols : List String) :
    List Row → Nat → List (List Value × List Nat) →
    List (List Value × List Nat) × Option String
  | [], _, es => (es, none)
  | r :: rs, i, es =>
    match rowKeyStrict r cols with
    | .error e => (es, some e)
    | .ok k => rebuildStrictAux cols rs (i + 1) (entAppend es k i)

/-- The source's `Table.add_index`: register the index, then backfill it
with the strict (unfiltered) key; a failure leaves the partially built
index registered. -/
def addIndex (t : Table) (nm : String) (cols : List String) : Table × Option String :=
  let (es, err) := rebuildStrictAux cols t.rows 0 []
  ({ t with indexes := alSet t.indexes nm ⟨cols, es⟩ }, err)

/-- Default indexes created by `Table.__post_init__`: one over the primary
column if any, and one per additional unique column (skipping a column
equal, as a dataclass value, to the primary one). -/
def defaultIndexes (cols : List Column) : List (String × Index) :=
  let pk := primaryKeyColumn cols
  (match pk with
   | some c => [("__primary", (⟨[c.name], []⟩ : Index))]
   | none => []) ++
    (cols.filter (fun c => c.is_unique && !(pk = some c))).map
      (fun c => ("__unique_" ++ c.name, (⟨[c.name], []⟩ : Index)))

/-- A freshly constructed `Table(name, columns)`. -/
def mkTable (nm : String) (cols : List Column) : Table :=
  { name := nm, columns := cols, rows := [], indexes := defaultIndexes cols, next_row_id := 1 }

/-- Lines 238-249 of `_execute_insert`: validate the candidate row, and
only on success append it and add its position to every index under the
filtered key.  A validation failure leaves the table untouched. -/
def table_insert_row (t : Table) (row : Row) : Except String Table :=
  match validate_row t row with
  | .error e => .error e
  | .ok _ =>
    let pos := t.rows.length
    .ok { t with
          rows := t.rows ++ [row],
          indexes := t.indexes.map (fun ni =>
            (ni.1, { ni.2 with
                     entries := entAppend ni.2.entries (rowKeyF row ni.2.column_names) pos })) }

/-- Python regex `\w` over ASCII: letters, digits, underscore. -/
def isWordChar (c : Char) : Bool :=
  c.isAlphanum || c = '_'

/-- Case-insensitive literal prefix of a regex pattern: consume it or
fail. -/
def dropPrefixCI (p : List Char) (s : List Char) : Option (List Char) :=
  if lcStartsWithCI p s then some (List.drop p.length s) else none

/-- Python `s.split()` (whitespace fields, no empties), fuelled. -/
def lcFieldsF : Nat → List Char → List (List Char)
  | 0, _ => []
  | f + 1, s =>
    let s1 := s.dropWhile pyIsSpace
    match s1 with
    | [] => []
    | _ =>
      s1.takeWhile (fun c => !pyIsSpace c) ::
        lcFieldsF f (s1.dropWhile (fun c => !pyIsSpace c))

/-- Python `s.split()`. -/
def lcFields (s : List Char) : List (List Char) :=
  lcFieldsF (s.length + 1) s

/-- Earliest case-insensitive occurrence of `kw` with at least one
character after it; returns the segment before the keyword and the
remainder after it.  This realises a lazy `(.+?)` group followed by the
keyword literal and a non-empty tail, minus the requirement that the
before-segment be non-empty (the caller enforces that). -/
def findKwSplitCI (kw : List Char) : List Char → Option (List Char × List Char)
  | [] => none
  | c :: cs =>
    if lcStartsWithCI kw (c :: cs) && !(List.drop kw.length (c :: cs)).isEmpty then
      some ([], List.drop kw.length (c :: cs))
    else (findKwSplitCI kw cs).map (fun p => (c :: p.1, p.2))

/-- As `findKwSplitCI`, but the before-segment must be non-empty (the
`(.+?)` group needs at least one character). -/
def findKwSplitCIpos (kw : List Char) (s : List Char) : Option (List Char × List Char) :=
  match s with
  | [] => none
  | c :: cs => (findKwSplitCI kw cs).map (fun p => (c :: p.1, p.2))

/-- The `\s*VALUES\s*\(([^)]+)\)` tail of the INSERT pattern. -/
def insertValuesPart (s : List Char) : Option (List Char) :=
  match dropPrefixCI "VALUES".data (s.dropWhile pyIsSpace) with
  | none => none
  | some r =>
    match r.dropWhile pyIsSpace with
    | '(' :: rest =>
      match lcSplitOnce [')'] rest with
      | some ([], _) => none
      | some (content, _) => some content
      | none => none
    | _ => none

/-- The part of the INSERT pattern after the table name:
`\s*(?:\(([^)]+)\))?\s*VALUES\s*\(([^)]+)\)`.  When the text after the
optional whitespace starts with `(`, the optional column group must match
(skipping it would leave `VALUES` facing `(`). -/
def insertTail (r : List Char) : Option (Option (List Char) × List Char) :=
  let r1 := r.dropWhile pyIsSpace
  match r1 with
  | '(' :: rest =>
    (match lcSplitOnce [')'] rest with
     | some ([], _) => none
     | some (content, after) => (insertValuesPart after).map (fun v => (some content, v))
     | none => none)
  | _ => (insertValuesPart r1).map (fun v => (none, v))

/-- Backtracking over the greedy `(\w+)` table-name group: try the longest
word run first, shrinking until the tail of the pattern matches (regex
semantics; e.g. `INSERT INTO xVALUES(1)` matches with name `x`). -/
def insertTryName (run : List Char) (rest : List Char) :
    Nat → Option (String × Option (List Char) × List Char)
  | 0 => none
  | k + 1 =>
    match insertTail (run.drop (k + 1) ++ rest) with
    | some (c, v) => some (String.mk (run.take (k + 1)), c, v)
    | none => insertTryName run rest k

/-- The regex of `_execute_insert`:
`INSERT INTO (\w+)\s*(?:\(([^)]+)\))?\s*VALUES\s*\(([^)]+)\)` under
`re.match(..., re.IGNORECASE)`.  Returns table name, the optional raw
column list and the raw value list; trailing text is ignored, as with
`re.match`. -/
def parseInsert (sql : List Char) : Option (String × Option (List Char) × List Char) :=
  match dropPrefixCI "INSERT INTO ".data sql with
  | none => none
  | some r0 =>
    let run := r0.takeWhile isWordChar
    insertTryName run (r0.dropWhile isWordChar) run.length

/-- The regex of `_execute_create_table`:
`CREATE TABLE (\w+)\s*\((.*)\)` under `re.IGNORECASE | re.DOTALL`.  The
greedy `(.*)` followed by `\)` captures everything up to the last closing
parenthesis. -/
def parseCreateTable (sql : List Char) : Option (String × List Char) :=
  match dropPrefixCI "CREATE TABLE ".data sql with
  | none => none
  | some r0 =>
    let run := r0.takeWhile isWordChar
    if run.isEmpty then none
    else
      match (r0.dropWhile isWordChar).dropWhile pyIsSpace with
      | '(' :: rest =>
        (match rest.reverse.dropWhile (fun c => !(c = ')')) with
         | ')' :: revContent => some (String.mk run, revContent.reverse)
         | _ => none)
      | _ => none

/-- The regex of `_execute_update`: `UPDATE (\w+) SET (.+?)(?: WHERE (.+))?$`. -/
def parseUpdate (sql : List Char) : Option (String × List Char × Option (List Char)) :=
  match dropPrefixCI "UPDATE ".data sql with
  | none => none
  | some r0 =>
    let run := r0.takeWhile isWordChar
    if run.isEmpty then none
    else
      match dropPrefixCI " SET ".data (r0.dropWhile isWordChar) with
      | none => none
      | some r1 =>
        match findKwSplitCIpos " WHERE ".data r1 with
        | some (st, wc) => some (String.mk run, st, some wc)
        | none => if r1.isEmpty then none else some (String.mk run, r1, none)

/-- The regex of `_execute_delete`: `DELETE FROM (\w+)(?: WHERE (.+))?$`. -/
def parseDelete (sql : List Char) : Option (String × Option (List Char)) :=
  match dropPrefixCI "DELETE FROM ".data sql with
  | none => none
  | some r0 =>
    let run := r0.takeWhile isWordChar
    if run.isEmpty then none
    else
      let rest := r0.dropWhile isWordChar
      if rest.isEmpty then some (String.mk run, none)
      else if lcStartsWithCI " WHERE ".data rest && !(List.drop 7 rest).isEmpty then
        some (String.mk run, some (List.drop 7 rest))
      else none

/-- The regex of `_execute_drop_table`: `DROP TABLE (\w+)`. -/
def parseDropTable (sql : List Char) : Option String :=
  match dropPrefixCI "DROP TABLE ".data sql with
  | none => none
  | some r0 =>
    let run := r0.takeWhile isWordChar
    if run.isEmpty then none else some (String.mk run)

/-- The regex of `_execute_create_index`:
`CREATE INDEX (\w+) ON (\w+) \((.+?)\)`; the lazy column group ends at the
first closing parenthesis at offset at least one. -/
def parseCreateIndex (sql : List Char) : Option (String × String × List Char) :=
  match dropPrefixCI "CREATE INDEX ".data sql with
  | none => none
  | some r0 =>
    let run1 := r0.takeWhile isWordChar
    if run1.isEmpty then none
    else
      match dropPrefixCI " ON ".data (r0.dropWhile isWordChar) with
      | none => none
      | some r1 =>
        let run2 := r1.takeWhile isWordChar
        if run2.isEmpty then none
        else
          match dropPrefixCI " (".data (r1.dropWhile isWordChar) with
          | none => none
          | some r2 =>
            match r2 with
            | [] => none
            | c :: cs =>
              (lcSplitOnce [')'] cs).map
                (fun p => (String.mk run1, String.mk run2, c :: p.1))

/-- Scanner step for the tail of the SELECT regex
`(.+?)(?: WHERE (.+?))?(?: ORDER BY (.+?))?$`: the earliest position at
which either ` WHERE ` (tried first) or ` ORDER BY ` matches
case-insensitively with a non-empty remainder.  The boolean is true for
WHERE. -/
def findSelTail : List Char → Option (List Char × Bool × List Char)
  | [] => none
  | c :: cs =>
    if lcStartsWithCI " WHERE ".data (c :: cs) && !(List.drop 7 (c :: cs)).isEmpty then
      some ([], true, List.drop 7 (c :: cs))
    else if lcStartsWithCI " ORDER BY ".data (c :: cs) && !(List.drop 10 (c :: cs)).isEmpty then
      some ([], false, List.drop 10 (c :: cs))
    else (findSelTail cs).map (fun p => (c :: p.1, p.2.1, p.2.2))

/-- As `findSelTail`, but the segment before the keyword must be
non-empty. -/
def findSelTailPos (s : List Char) : Option (List Char × Bool × List Char) :=
  match s with
  | [] => none
  | c :: cs => (findSelTail cs).map (fun p => (c :: p.1, p.2.1, p.2.2))

/-- The regex of `_execute_select`:
`SELECT (.+?) FROM (.+?)(?: WHERE (.+?))?(?: ORDER BY (.+?))?$` under
`re.match(..., re.IGNORECASE)`: lazy groups take the earliest keyword
occurrence whose remainder still matches.  Returns the stripped select
clause, the stripped from clause, and the raw optional WHERE and ORDER BY
texts. -/
def parseSelect (sql : List Char) :
    Option (List Char × List Char × Option (List Char) × Option (List Char)) :=
  match dropPrefixCI "SELECT ".data sql with
  | none => none
  | some s0 =>
    match findKwSplitCIpos " FROM ".data s0 with
    | none => none
    | some (sel, rest) =>
      match findSelTailPos rest with
      | none => some (lcStrip sel, lcStrip rest, none, none)
      | some (fromc, true, w) =>
        (match findKwSplitCIpos " ORDER BY ".data w with
         | some (wc, oc) => some (lcStrip sel, lcStrip fromc, some wc, some oc)
         | none => some (lcStrip sel, lcStrip fromc, some w, none))
      | some (fromc, false, oc) => some (lcStrip sel, lcStrip fromc, none, some oc)

/-- Engine-side persistent state: the in-memory catalog (`self.tables`)
and the persisted snapshots (one pickle file per table in the data
directory). -/
structure DB where
  tables : List (String × Table)
  disk : List (String × Table)
deriving DecidableEq

/-- Column definition parsing inside `_execute_create_table`: split on
commas, skip blanks, take the first field as the name and the second as
the type (a missing type raises `IndexError`, an unknown one the enum's
`ValueError`), and read the constraint keywords from the uppercased
definition text. -/
def dataTypeOfString (s : List Char) : Option DataType :=
  if s = "INTEGER".data then some .INTEGER
  else if s = "TEXT".data then some .TEXT
  else if s = "REAL".data then some .REAL
  else if s = "BOOLEAN".data then some .BOOLEAN
  else if s = "DATE".data then some .DATE
  else none

/-- Parse the comma-separated column definitions of CREATE TABLE. -/
def parseColumnDefs : List (List Char) → Except String (List Column)
  | [] => .ok []
  | cd0 :: rest =>
    let cd := lcStrip cd0
    if cd.isEmpty then parseColumnDefs rest
    else
      match lcFields cd with
      | [] => .error "list index out of range"
      | [_] => .error "list index out of range"
      | nm :: ty :: _ =>
        match dataTypeOfString (pyUpperL ty) with
        | none => .error ("'" ++ String.mk (pyUpperL ty) ++ "' is not a valid DataType")
        | some dt =>
          let up := pyUpperL cd
          let is_primary := lcContains "PRIMARY KEY".data up
          let col : Column :=
            { name := String.mk nm
              data_type := dt
              is_primary := is_primary
              is_unique := lcContains "UNIQUE".data up || is_primary
              is_nullable := !lcContains "NOT NULL".data up }
          (parseColumnDefs rest).map (fun cols => col :: cols)

/-- The source's `_execute_create_table`. -/
def execute_create_table (db : DB) (sql : List Char) : DB × Except String (List Row) :=
  match parseCreateTable sql with
  | none => (db, .error "Invalid CREATE TABLE syntax")
  | some (nm, colsSql) =>
    if (alGet db.tables nm).isSome then
      (db, .error ("Table '" ++ nm ++ "' already exists"))
    else
      match parseColumnDefs (lcSplitOn [','] (lcStrip colsSql)) with
      | .error e => (db, .error e)
      | .ok cols =>
        let t := mkTable nm cols
        ({ tables := alSet db.tables nm t, disk := alSet db.disk nm t },
         .ok [[("status", .text ("Table '" ++ nm ++ "' created successfully")),
               ("columns", .int cols.length)]])

/-- Column-name resolution of `_execute_insert`: the explicit list when
parenthesised columns were given, else the declared columns in order. -/
def insertColNames (t : Table) (colsOpt : Option (List Char)) : List String :=
  match colsOpt with
  | some cstr => (lcSplitOn [','] cstr).map (fun c => String.mk (lcStrip c))
  | none => t.columns.map (fun c => c.name)

/-- Value-list coercion of `_execute_insert`: comma-split, token-stripped,
type-inferred. -/
def insertValuesOf (valsStr : List Char) : List Value :=
  (lcSplitOn [','] valsStr).map (fun v => coerceValue (stripToken v))

/-- The candidate row dict built by zipping column names with values. -/
def buildRow (cns : List String) (vs : List Value) : Row :=
  (cns.zip vs).foldl (fun r kv => alSet r kv.1 kv.2) []

/-- Lines 230-249 of `_execute_insert` after value coercion: column-count
check, dict-built candidate row, then validate-append-index. -/
def insert_values (t : Table) (cns : List String) (vs : List Value) : Except String Table :=
  if !(cns.length = vs.length) then .error "Column count doesn't match value count"
  else table_insert_row t (buildRow cns vs)

/-- The source's `_execute_insert`. -/
def execute_insert (db : DB) (sql : List Char) : DB × Except String (List Row) :=
  match parseInsert sql with
  | none => (db, .error "Invalid INSERT syntax")
  | some (nm, colsOpt, valsStr) =>
    match alGet db.tables nm with
    | none => (db, .error ("Table '" ++ nm ++ "' does not exist"))
    | some table =>
      let col_names := insertColNames table colsOpt
      let values := insertValuesOf valsStr
      match insert_values table col_names values with
      | .error e => (db, .error e)
      | .ok t' =>
        ({ tables := alSet db.tables nm t', disk := alSet db.disk nm t' },
         .ok [[("status", .text "Row inserted successfully"), ("row_id", .int t'.rows.length)]])

/-- SET-clause parsing of `_execute_update`: comma-separated `col=value`
assignments accumulated into a dict; a missing `=` raises the two-variable
unpacking `ValueError`. -/
def parseSetAssignments : List (List Char) → List (String × Value) →
    Except String (List (String × Value))
  | [], acc => .ok acc
  | a :: rest, acc =>
    match lcSplitOnce ['='] a with
    | none => .error "not enough values to unpack (expected 2, got 1)"
    | some (c, v) =>
      parseSetAssignments rest (alSet acc (String.mk (lcStrip c)) (coerceValue (stripToken v)))

/-- The per-row schema/uniqueness checks of the UPDATE sweep (`for col,
value in updates.items()`), against the current (partially updated) row
list. -/
def checkUpdateCols (cols : List Column) (rows : List Row) (i : Nat) :
    List (String × Value) → Option String
  | [] => none
  | (c, v) :: rest =>
    match cols.find? (fun co => co.name = c) with
    | none => some ("Column '" ++ c ++ "' does not exist")
    | some co =>
      if co.is_unique && !(v = .null) then
        if (rows.enum.any (fun p => !(p.1 = i) && pyEq (rowGetD p.2 c .null) v)) then
          some ("Duplicate value for unique column '" ++ c ++ "'")
        else checkUpdateCols cols rows i rest
      else checkUpdateCols cols rows i rest

/-- Python `row.update(updates)`. -/
def applyUpdates (row : Row) (updates : List (String × Value)) : Row :=
  updates.foldl (fun r kv => alSet r kv.1 kv.2) row

/-- The per-row filter `not where_clause or self._evaluate_where(row,
where_clause)` shared by UPDATE and DELETE. -/
def whereTest (wc : Option (List Char)) (row : Row) : Except String Bool :=
  match wc with
  | none => .ok true
  | some w => evaluate_where row w

/-- The mutation sweep of `_execute_update`: rows are updated in place one
by one, so an error raised at row `i` leaves rows before `i` already
mutated (and indexes not rebuilt) — exactly the partial state the Python
exception leaves behind. -/
def updateSweep (cols : List Column) (updates : List (String × Value))
    (wc : Option (List Char)) :
    Nat → Nat → List Row → Nat → List Row × Nat × Option String
  | 0, _, rows, cnt => (rows, cnt, none)
  | rem + 1, i, rows, cnt =>
    match rows.get? i with
    | none => (rows, cnt, none)
    | some row =>
      match whereTest wc row with
      | .error e => (rows, cnt, some e)
      | .ok false => updateSweep cols updates wc rem (i + 1) rows cnt
      | .ok true =>
        match checkUpdateCols cols rows i updates with
        | some e => (rows, cnt, some e)
        | none =>
          updateSweep cols updates wc rem (i + 1)
            (rows.set i (applyUpdates row updates)) (cnt + 1)

/-- Table-level core of `_execute_update`: sweep, then rebuild every index
only when the sweep completed and touched at least one row. -/
def update_table (t : Table) (updates : List (String × Value))
    (wc : Option (List Char)) : Table × Nat × Option String :=
  let r := updateSweep t.columns updates wc t.rows.length 0 t.rows 0
  match r.2.2 with
  | some e => ({ t with rows := r.1 }, r.2.1, some e)
  | none =>
    if 0 < r.2.1 then (rebuildTableIndexes { t with rows := r.1 }, r.2.1, none)
    else ({ t with rows := r.1 }, r.2.1, none)

/-- The source's `_execute_update`.  On a mid-sweep error the partially
mutated table stays in the catalog and nothing is persisted. -/
def execute_update (db : DB) (sql : List Char) : DB × Except String (List Row) :=
  match parseUpdate sql with
  | none => (db, .error "Invalid UPDATE syntax")
  | some (nm, setc, wc) =>
    match alGet db.tables nm with
    | none => (db, .error ("Table '" ++ nm ++ "' does not exist"))
    | some table =>
      match parseSetAssignments (lcSplitOn [','] (lcStrip setc)) [] with
      | .error e => (db, .error e)
      | .ok updates =>
        let r := update_table table updates wc
        match r.2.2 with
        | some e => ({ db with tables := alSet db.tables nm r.1 }, .error e)
        | none =>
          if 0 < r.2.1 then
            ({ tables := alSet db.tables nm r.1, disk := alSet db.disk nm r.1 },
             .ok [[("status", .text (toString r.2.1 ++ " row(s) updated"))]])
          else
            ({ db with tables := alSet db.tables nm r.1 },
             .ok [[("status", .text (toString r.2.1 ++ " row(s) updated"))]])

/-- The match-collection loop of `_execute_delete`: finishes (or raises)
before any row is removed. -/
def collectMatches (wc : Option (List Char)) : List (Nat × Row) → Except String (List Nat)
  | [] => .ok []
  | (i, r) :: rest =>
    match whereTest wc r with
    | .error e => .error e
    | .ok true => (collectMatches wc rest).map (fun l => i :: l)
    | .ok false => collectMatches wc rest

/-- Table-level core of `_execute_delete`: collect matches, pop them from
highest position to lowest, and rebuild every index if anything was
removed. -/
def delete_table (t : Table) (wc : Option (List Char)) : Table × Nat × Option String :=
  match collectMatches wc t.rows.enum with
  | .error e => (t, 0, some e)
  | .ok idxs =>
    if idxs.isEmpty then (t, 0, none)
    else
      let rows' := (t.rows.enum.filter (fun p => !(idxs.contains p.1))).map (fun p => p.2)
      (rebuildTableIndexes { t with rows := rows' }, idxs.length, none)

/-- The source's `_execute_delete`. -/
def execute_delete (db : DB) (sql : List Char) : DB × Except String (List Row) :=
  match parseDelete sql with
  | none => (db, .error "Invalid DELETE syntax")
  | some (nm, wc) =>
    match alGet db.tables nm with
    | none => (db, .error ("Table '" ++ nm ++ "' does not exist"))
    | some table =>
      let r := delete_table table wc
      match r.2.2 with
      | some e => (db, .error e)
      | none =>
        if 0 < r.2.1 then
          ({ tables := alSet db.tables nm r.1, disk := alSet db.disk nm r.1 },
           .ok [[("status", .text (toString r.2.1 ++ " row(s) deleted"))]])
        else
          (db, .ok [[("status", .text (toString r.2.1 ++ " row(s) deleted"))]])

/-- FROM-clause resolution of `_execute_select` (lines 292-306): when
` JOIN ` occurs, split on `\s+JOIN\s+` and strip a trailing
` ON <condition>` per part (collected but never used); the ON split is
case-sensitive while its occurrence check is not, so a lower-case ` on `
raises the unpacking `ValueError`. -/
def parseFromTables (fc : List Char) : Except String (List String × List (List Char)) :=
  if lcContains " JOIN ".data (pyUpperL fc) then
    let rec go : List (List Char) → Except String (List String × List (List Char))
      | [] => .ok ([], [])
      | part :: rest =>
        if lcContains " ON ".data (pyUpperL part) then
          match lcSplitOnce " ON ".data part with
          | none => .error "not enough values to unpack (expected 2, got 1)"
          | some (tp, cond) =>
            (go rest).map (fun p => (String.mk (lcStrip tp) :: p.1, lcStrip cond :: p.2))
        else
          (go rest).map (fun p => (String.mk (lcStrip part) :: p.1, p.2))
    go (splitWsKw "JOIN".data fc)
  else .ok ([String.mk fc], [])

/-- Resolve table names against the catalog, failing on the first missing
one. -/
def resolveTables (db : DB) : List String → Except String (List Table)
  | [] => .ok []
  | n :: ns =>
    match alGet db.tables n with
    | none => .error ("Table '" ++ n ++ "' does not exist")
    | some t => (resolveTables db ns).map (fun ts => t :: ts)

/-- Python `{**row1, **row2}`. -/
def mergeRows (r1 r2 : Row) : Row :=
  r2.foldl (fun a kv => alSet a kv.1 kv.2) r1

/-- The prefixed-key dict `{f"{name}.{k}": v for k, v in row.items()}`. -/
def prefixRow (tn : String) (r : Row) : Row :=
  r.map (fun kv => (tn ++ "." ++ kv.1, kv.2))

/-- Row materialisation of `_execute_select` (lines 321-332): one table
copies its rows; otherwise a nested loop over the FIRST TWO resolved
tables only — `table_objs[0]` and `table_objs[1]` are the only ones the
loop reads, whatever the length of the list. -/
def materializeRows (tobs : List Table) (tns : List String) : List Row :=
  match tobs with
  | [t] => t.rows.map (fun r => r)
  | t1 :: t2 :: _ =>
    (t1.rows.map (fun r1 =>
      t2.rows.map (fun r2 => mergeRows r1 (prefixRow (tns.getD 1 "") r2)))).flatten
  | [] => []

/-- Modelled from the spec: the join materialisation C5 claims — the full
cross product of the first table's rows with EACH subsequent table's rows,
later tables' keys prefixed with their name.  This follows the claim's
words, for comparison against `materializeRows` (the source's loop). -/
def claimedJoinMaterialization (tobs : List Table) (tns : List String) : List Row :=
  match tobs, tns with
  | [], _ => []
  | t1 :: rest, _ :: restNames =>
    (rest.zip restNames).foldl
      (fun acc p =>
        (acc.map (fun r1 => p.1.rows.map (fun r2 => mergeRows r1 (prefixRow p.2 r2)))).flatten)
      (t1.rows.map (fun r => r))
  | t1 :: _, [] => t1.rows.map (fun r => r)

/-- WHERE filtering over materialised rows; an evaluation error aborts the
statement. -/
def filterWhere (w : List Char) : List Row → Except String (List Row)
  | [] => .ok []
  | r :: rs =>
    match evaluate_where r w with
    | .error e => .error e
    | .ok true => (filterWhere w rs).map (fun l => r :: l)
    | .ok false => filterWhere w rs

/-- ORDER BY key of a row: `tuple(x.get(col, "") for col in order_cols)`. -/
def sortKeyOf (ocols : List String) (r : Row) : List Value :=
  ocols.map (fun c => rowGetD r c (.text ""))

/-- Python tuple comparison: first non-`==` component decides, by `<`
(which may raise `TypeError`). -/
def pyCmpList : List Value → List Value → Except String Ordering
  | [], [] => .ok .eq
  | a :: as, b :: bs => if pyEq a b then pyCmpList as bs else pyCmp a b
  | [], _ :: _ => .ok .lt
  | _ :: _, [] => .ok .gt

/-- Stable insertion of a row into an already sorted prefix (ascending,
inserting after equal keys). -/
def insertIntoSorted (ocols : List String) (x : Row) : List Row → Except String (List Row)
  | [] => .ok [x]
  | y :: ys =>
    match pyCmpList (sortKeyOf ocols y) (sortKeyOf ocols x) with
    | .error e => .error e
    | .ok .gt => .ok (x :: y :: ys)
    | .ok _ => (insertIntoSorted ocols x ys).map (fun l => y :: l)

/-- Stable ascending sort by the ORDER BY key (the semantics of
`results.sort(key=...)` on fully comparable keys).  Python's timsort may
compare a different set of pairs, so which incomparable-key inputs raise
`TypeError` can differ; on comparable keys the result is identical. -/
def sortRowsAux (ocols : List String) (acc : List Row) : List Row → Except String (List Row)
  | [] => .ok acc
  | r :: rs =>
    match insertIntoSorted ocols r acc with
    | .error e => .error e
    | .ok acc2 => sortRowsAux ocols acc2 rs

/-- Sort rows for ORDER BY. -/
def sortRows (ocols : List String) (rs : List Row) : Except String (List Row) :=
  sortRowsAux ocols [] rs

/-- Projection of one result row (lines 348-357): a requested column
present in the row is copied; one absent but containing a dot is filled
with `row.get(col, None)`, i.e. null; any other absent column is silently
skipped. -/
def projectRow (columns : List String) (row : Row) : Row :=
  columns.foldl
    (fun acc c =>
      if rowHas row c then alSet acc c (rowGetD row c .null)
      else if lcContains ['.'] c.data then alSet acc c (rowGetD row c .null)
      else acc)
    []

/-- Requested output columns: `*` expands to the first table's declared
column names in order; otherwise the comma-split, stripped literal
names. -/
def selectColumns (selc : List Char) (tobs : List Table) : List String :=
  if selc = "*".data then (tobs.headD (mkTable "" [])).columns.map (fun c => c.name)
  else (lcSplitOn [','] selc).map (fun c => String.mk (lcStrip c))

/-- The source's `_execute_select` (read-only). -/
def execute_select (db : DB) (sql : List Char) : Except String (List Row) :=
  match parseSelect sql with
  | none => .error "Invalid SELECT syntax"
  | some (selc, fromc, wc, oc) =>
    match parseFromTables fromc with
    | .error e => .error e
    | .ok tjs =>
      match resolveTables db tjs.1 with
      | .error e => .error e
      | .ok tobs =>
        let columns := selectColumns selc tobs
        let results := materializeRows tobs tjs.1
        match (match wc with
               | none => .ok results
               | some w => filterWhere w results : Except String (List Row)) with
        | .error e => .error e
        | .ok results2 =>
          match (match oc with
                 | none => .ok results2
                 | some o =>
                   sortRows ((lcSplitOn [','] o).map (fun c => String.mk (lcStrip c))) results2 :
                   Except String (List Row)) with
          | .error e => .error e
          | .ok results3 => .ok (results3.map (projectRow columns))

/-- The source's `_execute_create_index`. -/
def execute_create_index (db : DB) (sql : List Char) : DB × Except String (List Row) :=
  match parseCreateIndex sql with
  | none => (db, .error "Invalid CREATE INDEX syntax")
  | some (iname, tname, colsStr) =>
    match alGet db.tables tname with
    | none => (db, .error ("Table '" ++ tname ++ "' does not exist"))
    | some table =>
      let column_names := (lcSplitOn [','] colsStr).map (fun c => String.mk (lcStrip c))
      match column_names.find? (fun cn => !(table.columns.any (fun c => c.name = cn))) with
      | some cn =>
        (db, .error ("Column '" ++ cn ++ "' does not exist in table '" ++ tname ++ "'"))
      | none =>
        let r := addIndex table iname column_names
        match r.2 with
        | some e => ({ db with tables := alSet db.tables tname r.1 }, .error e)
        | none =>
          ({ tables := alSet db.tables tname r.1, disk := alSet db.disk tname r.1 },
           .ok [[("status", .text ("Index '" ++ iname ++ "' created on '" ++ tname ++ "'"))]])

/-- The source's `_execute_drop_table`: remove the table from the catalog
and delete its snapshot. -/
def execute_drop_table (db : DB) (sql : List Char) : DB × Except String (List Row) :=
  match parseDropTable sql with
  | none => (db, .error "Invalid DROP TABLE syntax")
  | some nm =>
    if (alGet db.tables nm).isSome then
      ({ tables := db.tables.filter (fun p => !(p.1 = nm)),
         disk := db.disk.filter (fun p => !(p.1 = nm)) },
       .ok [[("status", .text ("Table '" ++ nm ++ "' dropped successfully"))]])
    else (db, .error ("Table '" ++ nm ++ "' does not exist"))

/-- Full engine state: catalog plus snapshots, the transaction log, and
the open-transaction flag. -/
structure EngineState where
  db : DB
  transaction_log : List String
  in_transaction : Bool
deriving DecidableEq

/-- The source's `_load_tables`: set `tables[name]` for every persisted
snapshot (existing in-memory entries for other names are kept — by
construction every live table has been persisted at least once). -/
def loadTables (tables disk : List (String × Table)) : List (String × Table) :=
  disk.foldl (fun ts p => alSet ts p.1 p.2) tables

/-- Statement classification outcome of `execute_sql`'s dispatch chain. -/
inductive StmtKind where
  | createTable
  | insert
  | select
  | update
  | delete
  | dropTable
  | createIndex
  | begin
  | commit
  | rollback
  | unsupported
deriving DecidableEq

/-- The `sql_upper.startswith(...)` dispatch chain of `execute_sql`, in
the source's exact priority order (the `BEGIN TRANSACTION`/`BEGIN`
disjunction is kept as written). -/
def classifySql (up : List Char) : StmtKind :=
  if lcStartsWith "CREATE TABLE".data up then .createTable
  else if lcStartsWith "INSERT".data up then .insert
  else if lcStartsWith "SELECT".data up then .select
  else if lcStartsWith "UPDATE".data up then .update
  else if lcStartsWith "DELETE".data up then .delete
  else if lcStartsWith "DROP TABLE".data up then .dropTable
  else if lcStartsWith "CREATE INDEX".data up then .createIndex
  else if lcStartsWith "BEGIN TRANSACTION".data up || lcStartsWith "BEGIN".data up then .begin
  else if lcStartsWith "COMMIT".data up then .commit
  else if lcStartsWith "ROLLBACK".data up then .rollback
  else .unsupported

/-- The log-append step at the top of `execute_sql`: while a transaction
is open the normalised statement text is appended before dispatch. -/
def logStep (st : EngineState) (sql : List Char) : EngineState :=
  if st.in_transaction then
    { st with transaction_log := st.transaction_log ++ [String.mk sql] }
  else st

/-- The dispatch body of `execute_sql`, acting on the already-logged
state. -/
def dispatchSql (st1 : EngineState) (sql : List Char) : EngineState × Except String (List Row) :=
  match classifySql (pyUpperL sql) with
  | .createTable =>
    let r := execute_create_table st1.db sql
    ({ st1 with db := r.1 }, r.2)
  | .insert =>
    let r := execute_insert st1.db sql
    ({ st1 with db := r.1 }, r.2)
  | .select => (st1, execute_select st1.db sql)
  | .update =>
    let r := execute_update st1.db sql
    ({ st1 with db := r.1 }, r.2)
  | .delete =>
    let r := execute_delete st1.db sql
    ({ st1 with db := r.1 }, r.2)
  | .dropTable =>
    let r := execute_drop_table st1.db sql
    ({ st1 with db := r.1 }, r.2)
  | .createIndex =>
    let r := execute_create_index st1.db sql
    ({ st1 with db := r.1 }, r.2)
  | .begin =>
    ({ st1 with in_transaction := true, transaction_log := [] },
     .ok [[("status", .text "Transaction started")]])
  | .commit =>
    ({ st1 with in_transaction := false, transaction_log := [] },
     .ok [[("status", .text "Transaction committed"),
           ("operations", .int st1.transaction_log.length)]])
  | .rollback =>
    ({ db := { st1.db with tables := loadTables st1.db.tables st1.db.disk },
       transaction_log := [], in_transaction := false },
     .ok [[("status", .text "Transaction rolled back")]])
  | .unsupported => (st1, .error ("Unsupported SQL command: " ++ String.mk sql))

/-- The source's `execute_sql`: normalise the statement, append it to the
transaction log when a transaction is open (before dispatch, so even a
failing statement — and COMMIT/ROLLBACK themselves — are logged), then
dispatch on the uppercased leading keyword. -/
def execute_sql (st : EngineState) (sql0 : String) : EngineState × Except String (List Row) :=
  dispatchSql (logStep st (normalizeSql sql0.data)) (normalizeSql sql0.data)

/-- One mutating table statement, post-parse: INSERT with its resolved
column names and coerced values, UPDATE with its parsed SET dict and raw
WHERE text, DELETE with its raw WHERE text. -/
inductive TableOp where
  | ins (col_names : List String) (values : List Value)
  | upd (updates : List (String × Value)) (wc : Option (List Char))
  | del (wc : Option (List Char))

/-- Apply one mutating statement to a table through the same cores the
handlers use; the returned table carries any partial mutation the Python
exception would leave behind. -/
def applyTableOp (t : Table) : TableOp → Table × Option String
  | .ins cns vs =>
    (match insert_values t cns vs with
     | .ok t2 => (t2, none)
     | .error e => (t, some e))
  | .upd us wc =>
    let r := update_table t us wc
    (r.1, r.2.2)
  | .del wc =>
    let r := delete_table t wc
    (r.1, r.2.2)

/-- Apply a sequence of mutating statements. -/
def applyTableOps (t : Table) : List TableOp → Table
  | [] => t
  | op :: ops => applyTableOps (applyTableOp t op).1 ops

/-- Did every statement of the sequence complete without an error? -/
def opsOk (t : Table) : List TableOp → Bool
  | [] => true
  | op :: ops =>
    match applyTableOp t op with
    | (t2, none) => opsOk t2 ops
    | (_, some _) => false

/-- One index is consistent with a row list when its entry dict equals the
full rebuild from those rows. -/
def idxConsistent (rows : List Row) (idx : Index) : Prop :=
  idx.entries = rebuildEntries rows idx.column_names

/-- All indexes of a table are consistent with its rows. -/
def tableConsistent (t : Table) : Prop :=
  ∀ ni ∈ t.indexes, idxConsistent t.rows ni.2

instance (rows : List Row) (idx : Index) : Decidable (idxConsistent rows idx) := by
  unfold idxConsistent; infer_instance

instance (t : Table) : Decidable (tableConsistent t) := by
  unfold tableConsistent; exact List.decidableBAll _ _

instance {ε α : Type} [DecidableEq ε] [DecidableEq α] : DecidableEq (Except ε α) := fun x y =>
  match x, y with
  | .ok a, .ok b =>
    if h : a = b then isTrue (by rw [h]) else isFalse (by intro hh; cases hh; exact h rfl)
  | .error e, .error f =>
    if h : e = f then isTrue (by rw [h]) else isFalse (by intro hh; cases hh; exact h rfl)
  | .ok _, .error _ => isFalse (by intro hh; cases hh)
  | .error _, .ok _ => isFalse (by intro hh; cases hh)

/-- Fixture: a plain nullable INTEGER column `a`. -/
def colAInt : Column := ⟨"a", .INTEGER, false, false, true⟩

/-- Fixture: a unique nullable INTEGER column `a`. -/
def colAUniq : Column := ⟨"a", .INTEGER, false, true, true⟩

/-- Fixture: a plain nullable INTEGER column `b`. -/
def colBInt : Column := ⟨"b", .INTEGER, false, false, true⟩

/-- Fixture: empty table `t` with one INTEGER column, as CREATE TABLE
builds it. -/
def tblInt : Table := mkTable "t" [colAInt]

/-- Fixture: engine state holding `t` both in memory and on disk,
outside a transaction. -/
def stInt : EngineState := ⟨⟨[("t", tblInt)], [("t", tblInt)]⟩, [], false⟩

/-- Fixture: table `t` with a unique column holding one row `{a: 1}`,
with its auto index filled. -/
def tblUniq1 : Table :=
  { name := "t", columns := [colAUniq], rows := [[("a", .int 1)]],
    indexes := [("__unique_a", ⟨["a"], [([.int 1], [0])]⟩)], next_row_id := 1 }

/-- Fixture: catalog/disk pair holding `tblUniq1`. -/
def dbUniq1 : DB := ⟨[("t", tblUniq1)], [("t", tblUniq1)]⟩

/-- Fixture: table `u` with unique `a` and plain `b`, rows
`{a:1,b:1}` and `{a:2,b:2}`, auto index filled and consistent. -/
def tblUniq2 : Table :=
  { name := "u", columns := [colAUniq, colBInt],
    rows := [[("a", .int 1), ("b", .int 1)], [("a", .int 2), ("b", .int 2)]],
    indexes := [("__unique_a", ⟨["a"], [([.int 1], [0]), ([.int 2], [1])]⟩)],
    next_row_id := 1 }

/-- Fixture: engine state holding `tblUniq2`. -/
def stUniq2 : EngineState := ⟨⟨[("u", tblUniq2)], [("u", tblUniq2)]⟩, [], false⟩

/-- Fixture: one-row table `a` for join experiments. -/
def tblA : Table :=
  { name := "a", columns := [⟨"x", .INTEGER, false, false, true⟩],
    rows := [[("x", .int 1)]], indexes := [], next_row_id := 1 }

/-- Fixture: one-row table `b`. -/
def tblB : Table :=
  { name := "b", columns := [⟨"y", .INTEGER, false, false, true⟩],
    rows := [[("y", .int 2)]], indexes := [], next_row_id := 1 }

/-- Fixture: two-row table `c`. -/
def tblC : Table :=
  { name := "c", columns := [⟨"z", .INTEGER, false, false, true⟩],
    rows := [[("z", .int 3)], [("z", .int 4)]], indexes := [], next_row_id := 1 }

/-- Fixture: catalog with the three join tables. -/
def db3 : DB := ⟨[("a", tblA), ("b", tblB), ("c", tblC)], [("a", tblA), ("b", tblB), ("c", tblC)]⟩

/-- Fixture: one-row table `t` with column `a = 1` and no indexes. -/
def tblOne : Table :=
  { name := "t", columns := [colAInt], rows := [[("a", .int 1)]],
    indexes := [], next_row_id := 1 }

/-- Fixture: catalog/disk pair holding `tblOne`. -/
def dbOne : DB := ⟨[("t", tblOne)], [("t", tblOne)]⟩

/-- Fixture: engine state holding `tblOne` with an open transaction and
an empty log. -/
def stOneTxn : EngineState := ⟨dbOne, [], true⟩

theorem lcStartsWith_append (p q s : List Char) (h : lcStartsWith (p ++ q) s = true) :
    lcStartsWith p s = true := by
  induction p generalizing s with
  | nil => rfl
  | cons a ps ih =>
    cases s with
    | nil => simp [lcStartsWith] at h
    | cons c cs =>
      simp only [List.cons_append, lcStartsWith, Bool.and_eq_true, decide_eq_true_eq] at h ⊢
      exact ⟨h.1, ih cs h.2⟩

theorem lcStartsWith_iff (p s : List Char) :
    lcStartsWith p s = true ↔ ∃ t, s = p ++ t := by
  induction p generalizing s with
  | nil => simp [lcStartsWith]
  | cons a ps ih =>
    cases s with
    | nil =>
      simp only [lcStartsWith, List.cons_append]
      constructor
      · intro h; cases h
      · rintro ⟨t, h⟩; cases h
    | cons c cs =>
      simp only [lcStartsWith, Bool.and_eq_true, decide_eq_true_eq, ih, List.cons_append]
      constructor
      · rintro ⟨rfl, t, rfl⟩; exact ⟨t, rfl⟩
      · rintro ⟨t, h⟩
        injection h with h1 h2
        exact ⟨h1.symm, t, h2⟩

theorem validateCols_of_mem (rows : List Row) (row : Row) (cols : List Column)
    (c : Column) (hc : c ∈ cols) (herr : ∃ e, validateCol rows row c = .error e) :
    ∃ e, validateCols rows row cols = .error e := by
  induction cols with
  | nil => cases hc
  | cons d ds ih =>
    rcases List.mem_cons.mp hc with rfl | hmem
    · obtain ⟨e, he⟩ := herr
      exact ⟨e, by simp [validateCols, he]⟩
    · cases hd : validateCol rows row d with
      | error e => exact ⟨e, by simp [validateCols, hd]⟩
      | ok u =>
        obtain ⟨e, he⟩ := ih hmem
        exact ⟨e, by simp [validateCols, hd, he]⟩

/-- C7: for every literal value token in an INSERT value list, an UPDATE
SET clause, or a comparison right-hand side, coercion tries integer (all
digits), then real (digits with one dot), then boolean (case-insensitive
TRUE/FALSE), then null (literally NULL), else quote-stripped text; the
token 5 becomes the integer 5 and 5.0 the real 5.0, never the reverse.
The final conjuncts exhibit the shared coercion at the three sites. -/
theorem C7_literal_coercion_order :
    (∀ v : List Char,
      (lcIsDigit v = true → coerceValue v = .int (digitsToNat v)) ∧
      (lcIsDigit v = false → lcIsDigit (removeFirstDot v) = true →
        coerceValue v = .real (parseDecimal v)) ∧
      (lcIsDigit v = false → lcIsDigit (removeFirstDot v) = false →
        (pyUpperL v = "TRUE".data ∨ pyUpperL v = "FALSE".data) →
        coerceValue v = .bool (pyUpperL v = "TRUE".data)) ∧
      (lcIsDigit v = false → lcIsDigit (removeFirstDot v) = false →
        ¬(pyUpperL v = "TRUE".data ∨ pyUpperL v = "FALSE".data) → v = "NULL".data →
        coerceValue v = .null) ∧
      (lcIsDigit v = false → lcIsDigit (removeFirstDot v) = false →
        ¬(pyUpperL v = "TRUE".data ∨ pyUpperL v = "FALSE".data) → ¬(v = "NULL".data) →
        coerceValue v = .text (String.mk v))) ∧
    coerceValue "5".data = .int 5 ∧
    coerceValue "5.0".data = .real 5 ∧
    coerceValue "5".data ≠ .real 5 ∧
    coerceValue "5.0".data ≠ .int 5 ∧
    insertValuesOf "5, 5.0".data = [.int 5, .real 5] ∧
    parseSetAssignments (lcSplitOn [','] "a = 5.0".data) [] = .ok [("a", .real 5)] ∧
    evaluate_where [("a", .int 5)] "a = 5".data = .ok true ∧
    evaluate_where [("a", .real 5)] "a = 5.0".data = .ok true := by
  refine ⟨fun v => ⟨?_, ?_, ?_, ?_, ?_⟩, by decide, by decide, by decide, by decide,
    by decide, by decide, by decide, by decide⟩
  · intro h1
    simp [coerceValue, h1]
  · intro h1 h2
    simp [coerceValue, h1, h2]
  · intro h1 h2 h3
    rcases h3 with h | h <;> simp [coerceValue, h1, h2, h]
  · intro h1 h2 h3 h4
    subst h4
    decide
  · intro h1 h2 h3 h4
    rcases not_or.mp h3 with ⟨hA, hB⟩
    simp [coerceValue, h1, h2, hA, hB, h4]

theorem C7_witness :
    lcIsDigit "5".data = true ∧ coerceValue "5".data = .int (digitsToNat "5".data) :=
  ⟨by decide, (C7_literal_coercion_order.1 "5".data).1 (by decide)⟩

/-- C10: a literal token beginning with a minus sign fails both numeric
tests of the coercion (the minus survives the dot removal), so it is kept
as text; consequently an INSERT that supplies such a token for an INTEGER
or REAL column fails type validation instead of storing a negative
number.  The final conjunct runs the engine end to end on
`INSERT INTO t VALUES (-5)` against an INTEGER column. -/
theorem C10_negative_literal_is_text (v rest : List Char) (hv : v = '-' :: rest)
    (t : Table) (row : Row) (col : Column) (s : String)
    (hc : col ∈ t.columns)
    (hdt : col.data_type = .INTEGER ∨ col.data_type = .REAL)
    (hrow : alGet row col.name = some (.text s)) :
    coerceValue v = .text (String.mk v) ∧
    (∃ e, validate_row t row = .error e) ∧
    execute_sql stInt "INSERT INTO t VALUES (-5)" =
      (stInt, .error "Column 'a' expects INTEGER") := by
  subst hv
  have hdigit : ('-' : Char).isDigit = false := rfl
  have h1 : lcIsDigit ('-' :: rest) = false := by
    simp [lcIsDigit, hdigit]
  have hdot : removeFirstDot ('-' :: rest) = '-' :: removeFirstDot rest := rfl
  have h2 : lcIsDigit (removeFirstDot ('-' :: rest)) = false := by
    rw [hdot]; simp [lcIsDigit, hdigit]
  have hup : pyUpperL ('-' :: rest) = '-' :: pyUpperL rest := rfl
  refine ⟨?_, ?_, by decide⟩
  · have hT : ¬(pyUpperL ('-' :: rest) = "TRUE".data) := by
      rw [hup]; intro h; cases h
    have hF : ¬(pyUpperL ('-' :: rest) = "FALSE".data) := by
      rw [hup]; intro h; cases h
    have hN : ¬(('-' :: rest) = "NULL".data) := by
      intro h; cases h
    simp [coerceValue, h1, h2, hT, hF, hN]
  · apply validateCols_of_mem t.rows row t.columns col hc
    have hval : validateCol t.rows row col =
        match typeCheckCol col (.text s) with
        | .error e => .error e
        | .ok _ =>
          if col.is_unique && !((Value.text s) = .null) then
            if t.rows.any (fun r => pyEq (rowGetD r col.name .null) (.text s)) then
              .error ("Duplicate value for unique column '" ++ col.name ++ "'")
            else .ok ()
          else .ok () := by
      simp [validateCol, hrow]
    rcases hdt with hdt | hdt <;>
      (rw [hval]; simp [typeCheckCol, hdt, isInstInt, isInstIntFloat])

theorem C10_witness :
    colAInt ∈ tblInt.columns ∧
    (coerceValue "-5".data = .text (String.mk "-5".data) ∧
     (∃ e, validate_row tblInt [("a", Value.text "-5")] = .error e) ∧
     execute_sql stInt "INSERT INTO t VALUES (-5)" =
       (stInt, .error "Column 'a' expects INTEGER")) :=
  ⟨by decide,
   C10_negative_literal_is_text "-5".data "5".data rfl tblInt
     [("a", Value.text "-5")] colAInt "-5" (by decide) (Or.inl rfl) (by decide)⟩

theorem classify_eq_begin (up : List Char) (h : classifySql up = .begin) :
    (lcStartsWith "BEGIN TRANSACTION".data up || lcStartsWith "BEGIN".data up) = true := by
  unfold classifySql at h
  split at h
  · cases h
  split at h
  · cases h
  split at h
  · cases h
  split at h
  · cases h
  split at h
  · cases h
  split at h
  · cases h
  split at h
  · cases h
  split at h
  · next hcond => exact hcond
  split at h
  · cases h
  split at h
  · cases h
  cases h

theorem classify_eq_commit (up : List Char) (h : classifySql up = .commit) :
    lcStartsWith "COMMIT".data up = true := by
  unfold classifySql at h
  split at h
  · cases h
  split at h
  · cases h
  split at h
  · cases h
  split at h
  · cases h
  split at h
  · cases h
  split at h
  · cases h
  split at h
  · cases h
  split at h
  · cases h
  split at h
  · next hcond => exact hcond
  split at h
  · cases h
  cases h

theorem classify_commit_shape (rest : List Char) :
    classifySql ("COMMIT".data ++ rest) = .commit := rfl

theorem classify_rollback_shape (rest : List Char) :
    classifySql ("ROLLBACK".data ++ rest) = .rollback := rfl

theorem dispatch_log_of_handler (st1 : EngineState) (sql : List Char)
    (hb : classifySql (pyUpperL sql) ≠ .begin)
    (hc : classifySql (pyUpperL sql) ≠ .commit)
    (hr : classifySql (pyUpperL sql) ≠ .rollback) :
    (dispatchSql st1 sql).1.transaction_log = st1.transaction_log := by
  unfold dispatchSql
  cases hk : classifySql (pyUpperL sql) <;> simp [hk] <;> first | rfl | (exfalso; simp_all)

theorem execute_sql_log_of_handler (st : EngineState) (sql : String)
    (hin : st.in_transaction = true)
    (hb : classifySql (pyUpperL (normalizeSql sql.data)) ≠ .begin)
    (hc : classifySql (pyUpperL (normalizeSql sql.data)) ≠ .commit)
    (hr : classifySql (pyUpperL (normalizeSql sql.data)) ≠ .rollback) :
    (execute_sql st sql).1.transaction_log =
      st.transaction_log ++ [String.mk (normalizeSql sql.data)] := by
  unfold execute_sql
  rw [dispatch_log_of_handler _ _ hb hc hr]
  unfold logStep
  rw [hin]
  rfl

theorem execute_sql_commit_of_open (st : EngineState) (sql : String)
    (hin : st.in_transaction = true) (rest : List Char)
    (hup : pyUpperL (normalizeSql sql.data) = "COMMIT".data ++ rest) :
    execute_sql st sql =
      ({ st with transaction_log := [], in_transaction := false },
       .ok [[("status", .text "Transaction committed"),
             ("operations",
              .int (st.transaction_log ++ [String.mk (normalizeSql sql.data)]).length)]]) := by
  unfold execute_sql dispatchSql
  rw [hup, classify_commit_shape]
  unfold logStep
  rw [hin]
  rfl

theorem execute_sql_rollback_of_open (st : EngineState) (sql : String)
    (rest : List Char)
    (hup : pyUpperL (normalizeSql sql.data) = "ROLLBACK".data ++ rest) :
    (execute_sql st sql).1.transaction_log = [] ∧
    (execute_sql st sql).1.in_transaction = false := by
  unfold execute_sql dispatchSql
  rw [hup, classify_rollback_shape]
  exact ⟨rfl, rfl⟩

/-- C4 counterexample: the claim says a statement is appended to the log
after being applied against the live table state; but a statement that is
never applied (here the unsupported `FOO`, which errors and leaves every
table untouched) is nonetheless appended — the source logs before
dispatch. -/
theorem C4_counterexample :
    (execute_sql stOneTxn "FOO").2 = .error "Unsupported SQL command: FOO" ∧
    (execute_sql stOneTxn "FOO").1.db = stOneTxn.db ∧
    (execute_sql stOneTxn "FOO").1.transaction_log = ["FOO"] := by
  decide

/-- C4 (amended): while a transaction is open, each statement is appended
verbatim to the log when received — before dispatch, so failing
statements and COMMIT itself are logged too; for any statement other than
BEGIN/COMMIT/ROLLBACK the log afterwards is the old log plus the
normalised statement text (execution order); COMMIT returns an operation
count equal to the log length at commit time (which includes the COMMIT
statement itself) and leaves the log empty and the manager idle; ROLLBACK
also leaves the log empty. -/
theorem C4_transaction_log_discipline (st : EngineState) (sql : String)
    (hin : st.in_transaction = true) :
    (classifySql (pyUpperL (normalizeSql sql.data)) ≠ .begin →
     classifySql (pyUpperL (normalizeSql sql.data)) ≠ .commit →
     classifySql (pyUpperL (normalizeSql sql.data)) ≠ .rollback →
     (execute_sql st sql).1.transaction_log =
       st.transaction_log ++ [String.mk (normalizeSql sql.data)]) ∧
    (∀ rest, pyUpperL (normalizeSql sql.data) = "COMMIT".data ++ rest →
      execute_sql st sql =
        ({ st with transaction_log := [], in_transaction := false },
         .ok [[("status", .text "Transaction committed"),
               ("operations",
                .int (st.transaction_log ++ [String.mk (normalizeSql sql.data)]).length)]])) ∧
    (∀ rest, pyUpperL (normalizeSql sql.data) = "ROLLBACK".data ++ rest →
      (execute_sql st sql).1.transaction_log = []) := by
  refine ⟨fun hb hc hr => execute_sql_log_of_handler st sql hin hb hc hr,
    fun rest hup => execute_sql_commit_of_open st sql hin rest hup,
    fun rest hup => (execute_sql_rollback_of_open st sql rest hup).1⟩

/-- Witness for C4 at a concrete open-transaction state and statement. -/
theorem C4_witness :
    stOneTxn.in_transaction = true ∧
    (execute_sql stOneTxn "INSERT INTO t VALUES (2)").1.transaction_log =
      stOneTxn.transaction_log ++
        [String.mk (normalizeSql "INSERT INTO t VALUES (2)".data)] :=
  ⟨rfl,
   (C4_transaction_log_discipline stOneTxn "INSERT INTO t VALUES (2)" rfl).1
     (by decide) (by decide) (by decide)⟩

/-- C9: while a transaction is open, the engine entry point appends the
normalised statement text to the log before dispatch: a statement that
fails with an error still appears at the end of the log, a COMMIT is
itself appended before the log is read (so its reported operation count
is the old log length plus one), and a ROLLBACK is appended before the
log is cleared (the final log is empty). -/
theorem C9_log_appended_before_dispatch (st : EngineState) (sql : String)
    (hin : st.in_transaction = true) :
    (∀ e, (execute_sql st sql).2 = .error e →
      (execute_sql st sql).1.transaction_log =
        st.transaction_log ++ [String.mk (normalizeSql sql.data)]) ∧
    (∀ rest, pyUpperL (normalizeSql sql.data) = "COMMIT".data ++ rest →
      (execute_sql st sql).2 =
        .ok [[("status", .text "Transaction committed"),
              ("operations", .int (st.transaction_log.length + 1))]]) ∧
    (∀ rest, pyUpperL (normalizeSql sql.data) = "ROLLBACK".data ++ rest →
      (execute_sql st sql).1.transaction_log = []) := by
  refine ⟨?_, ?_, fun rest hup => (execute_sql_rollback_of_open st sql rest hup).1⟩
  · intro e herr
    by_cases hb : classifySql (pyUpperL (normalizeSql sql.data)) = .begin
    · exfalso
      unfold execute_sql dispatchSql at herr
      rw [hb] at herr
      simp at herr
    by_cases hc : classifySql (pyUpperL (normalizeSql sql.data)) = .commit
    · exfalso
      unfold execute_sql dispatchSql at herr
      rw [hc] at herr
      simp at herr
    by_cases hr : classifySql (pyUpperL (normalizeSql sql.data)) = .rollback
    · exfalso
      unfold execute_sql dispatchSql at herr
      rw [hr] at herr
      simp at herr
    exact execute_sql_log_of_handler st sql hin hb hc hr
  · intro rest hup
    rw [execute_sql_commit_of_open st sql hin rest hup]
    simp

/-- Witness for C9: a COMMIT issued on an open transaction with an empty
log reports one operation — itself. -/
theorem C9_witness :
    stOneTxn.in_transaction = true ∧
    (execute_sql stOneTxn "COMMIT").2 =
      .ok [[("status", .text "Transaction committed"),
            ("operations", .int (stOneTxn.transaction_log.length + 1))]] :=
  ⟨rfl,
   (C9_log_appended_before_dispatch stOneTxn "COMMIT" rfl).2.1 [] (by decide)⟩

/-- C3 counterexample: starting from an engine whose table `t` was last
persisted empty, running BEGIN, then `INSERT INTO t VALUES (5)` (which
succeeds and persists its own snapshot), then ROLLBACK leaves `t` with
the inserted row — not the row set that was last persisted before BEGIN,
which was empty. -/
theorem C3_counterexample :
    (alGet (execute_sql (execute_sql (execute_sql stInt "BEGIN TRANSACTION").1
        "INSERT INTO t VALUES (5)").1 "ROLLBACK").1.db.tables "t").map Table.rows =
      some [[("a", Value.int 5)]] ∧
    (alGet stInt.db.disk "t").map Table.rows = some ([] : List Row) ∧
    ¬(some [[("a", Value.int 5)]] = (some ([] : List Row) : Option (List Row))) := by
  decide

/-- C3 (amended): for every engine state, executing ROLLBACK returns the
transaction manager to Idle, clears the log, and replaces the in-memory
catalog with the tables reloaded from their last persisted snapshots —
the snapshots as they are at rollback time.  Since every successful
mutating statement persists its own snapshot, a mid-transaction mutation
survives rollback; the table equals what was persisted before BEGIN only
when nothing was persisted in between. -/
theorem C3_rollback_reloads_last_persisted (st : EngineState) (sql : String)
    (rest : List Char)
    (hup : pyUpperL (normalizeSql sql.data) = "ROLLBACK".data ++ rest) :
    execute_sql st sql =
      ({ db := { tables := loadTables st.db.tables st.db.disk, disk := st.db.disk },
         transaction_log := [], in_transaction := false },
       .ok [[("status", .text "Transaction rolled back")]]) := by
  unfold execute_sql dispatchSql
  rw [hup, classify_rollback_shape]
  split <;> rename_i heq <;> cases heq <;> (unfold logStep; split <;> rfl)

/-- Witness for C3 at the concrete fixture state. -/
theorem C3_witness :
    pyUpperL (normalizeSql "ROLLBACK".data) = "ROLLBACK".data ++ [] ∧
    execute_sql stInt "ROLLBACK" =
      ({ db := { tables := loadTables stInt.db.tables stInt.db.disk,
                 disk := stInt.db.disk },
         transaction_log := [], in_transaction := false },
       .ok [[("status", .text "Transaction rolled back")]]) :=
  ⟨by decide, C3_rollback_reloads_last_persisted stInt "ROLLBACK" [] (by decide)⟩

theorem alGet_alSet {β : Type} (acc : List (String × β)) (k c : String) (v : β) :
    alGet (alSet acc k v) c = if k = c then some v else alGet acc c := by
  induction acc with
  | nil =>
    simp only [alSet, alGet]
  | cons p rest ih =>
    obtain ⟨k0, v0⟩ := p
    by_cases h0 : k0 = k
    · subst h0
      simp only [alSet, if_pos rfl, alGet]
      by_cases hc : k0 = c <;> simp [hc]
    · simp only [alSet, if_neg h0, alGet]
      by_cases hc : k0 = c
      · subst hc
        have hkc : ¬(k = k0) := fun h => h0 h.symm
        simp [hkc]
      · simp [hc, ih]

theorem projectAux_get (row : Row) (cols : List String) (acc : Row) (c : String) :
    alGet (cols.foldl (fun acc c =>
      if rowHas row c then alSet acc c (rowGetD row c .null)
      else if lcContains ['.'] c.data then alSet acc c (rowGetD row c .null)
      else acc) acc) c =
    if c ∈ cols ∧ (rowHas row c || lcContains ['.'] c.data) = true then
      some (rowGetD row c .null)
    else alGet acc c := by
  induction cols generalizing acc with
  | nil => simp
  | cons d ds ih =>
    simp only [List.foldl_cons]
    rw [ih]
    by_cases hdq : (rowHas row d || lcContains ['.'] d.data) = true
    · have hstep : (if rowHas row d then alSet acc d (rowGetD row d .null)
          else if lcContains ['.'] d.data then alSet acc d (rowGetD row d .null)
          else acc) = alSet acc d (rowGetD row d .null) := by
        rcases Bool.or_eq_true_iff.mp hdq with h | h <;> simp [h]
      rw [hstep]
      by_cases hq : (rowHas row c || lcContains ['.'] c.data) = true
      · by_cases hm : c ∈ ds
        · simp [hm, hq, List.mem_cons]
        · by_cases hdc : d = c
          · subst hdc
            simp [hm, hq, List.mem_cons, alGet_alSet]
          · have hcd : ¬(c = d) := fun h => hdc h.symm
            simp [hm, hq, hcd, List.mem_cons, alGet_alSet, hdc]
      · have hdc : ¬(d = c) := fun h => hq (h ▸ hdq)
        simp [hq, alGet_alSet, hdc]
    · have hstep : (if rowHas row d then alSet acc d (rowGetD row d .null)
          else if lcContains ['.'] d.data then alSet acc d (rowGetD row d .null)
          else acc) = acc := by
        have h1 : rowHas row d = false := by
          cases hx : rowHas row d
          · rfl
          · exact absurd (by simp [hx]) hdq
        have h2 : lcContains ['.'] d.data = false := by
          cases hx : lcContains ['.'] d.data
          · rfl
          · exact absurd (by simp [hx, h1]) hdq
        simp [h1, h2]
      rw [hstep]
      by_cases hq : (rowHas row c || lcContains ['.'] c.data) = true
      · have hcd : ¬(c = d) := fun h => hdq (h ▸ hq)
        simp [List.mem_cons, hcd, hq]
      · simp [hq]

/-- C6 counterexample: the claim says a requested key absent from a
result row is omitted from that row's output; but for a dotted name the
source writes `final_row[col] = row.get(col, None)`, so
`SELECT b.z FROM t` over a row without key `b.z` yields a row containing
`b.z` with a null value, not a row with the key omitted. -/
theorem C6_counterexample :
    execute_select dbOne "SELECT b.z FROM t".data = .ok [[("b.z", Value.null)]] ∧
    ¬(execute_select dbOne "SELECT b.z FROM t".data = .ok [([] : Row)]) := by
  decide

/-- C6 (amended): `*` expands to the first table's declared column names
in declaration order; otherwise each literally requested column name is
projected with the row's value when the key is present; a requested key
absent from a row is omitted when it contains no dot, but a requested
dotted (join-qualified) key absent from a row is included with a null
value rather than omitted; no absence raises an error. -/
theorem C6_projection_behaviour :
    (∀ (t : Table) (ts : List Table),
      selectColumns "*".data (t :: ts) = t.columns.map (fun c => c.name)) ∧
    (∀ (selc : List Char) (tobs : List Table), ¬(selc = "*".data) →
      selectColumns selc tobs = (lcSplitOn [','] selc).map (fun c => String.mk (lcStrip c))) ∧
    (∀ (cols : List String) (row : Row) (c : String),
      (c ∈ cols → rowHas row c = true →
        alGet (projectRow cols row) c = some (rowGetD row c .null)) ∧
      (c ∈ cols → rowHas row c = false → lcContains ['.'] c.data = true →
        alGet (projectRow cols row) c = some Value.null) ∧
      (rowHas row c = false → lcContains ['.'] c.data = false →
        alGet (projectRow cols row) c = none)) := by
  refine ⟨fun t ts => rfl, fun selc tobs hne => by simp [selectColumns, hne], ?_⟩
  intro cols row c
  refine ⟨?_, ?_, ?_⟩
  · intro hm hhas
    unfold projectRow
    rw [projectAux_get]
    simp [hm, hhas]
  · intro hm hhas hdot
    unfold projectRow
    rw [projectAux_get]
    have hnone : alGet row c = none := by
      cases hx : alGet row c
      · rfl
      · rw [rowHas, hx] at hhas; cases hhas
    simp [hm, hhas, hdot, rowGetD, hnone]
  · intro hhas hdot
    unfold projectRow
    rw [projectAux_get]
    simp [hhas, hdot, alGet]

/-- Witness for C6 at concrete inputs: a present key is copied, an absent
dotted key becomes null, an absent plain key is omitted. -/
theorem C6_witness :
    ("a" ∈ ["a", "b.z", "nope"] ∧ rowHas [("a", Value.int 7)] "a" = true ∧
      alGet (projectRow ["a", "b.z", "nope"] [("a", Value.int 7)]) "a" =
        some (rowGetD [("a", Value.int 7)] "a" .null)) ∧
    (rowHas [("a", Value.int 7)] "nope" = false ∧
      alGet (projectRow ["a", "b.z", "nope"] [("a", Value.int 7)]) "nope" = none) :=
  ⟨⟨by decide, by decide,
    ((C6_projection_behaviour.2.2 ["a", "b.z", "nope"] [("a", Value.int 7)] "a").1
      (by decide) (by decide))⟩,
   ⟨by decide,
    ((C6_projection_behaviour.2.2 ["a", "b.z", "nope"] [("a", Value.int 7)] "nope").2.2
      (by decide) (by decide))⟩⟩

/-- C5 counterexample: with three tables in the FROM chain, the source's
nested loop reads only the first two; `SELECT * FROM a JOIN b JOIN c`
with `c` holding two rows returns one row, while the claimed cross
product over each subsequent table yields two. -/
theorem C5_counterexample :
    execute_select db3 "SELECT * FROM a JOIN b JOIN c".data = .ok [[("x", Value.int 1)]] ∧
    (materializeRows [tblA, tblB, tblC] ["a", "b", "c"]).length = 1 ∧
    (claimedJoinMaterialization [tblA, tblB, tblC] ["a", "b", "c"]).length = 2 := by
  decide

/-- C5 (amended): for a FROM clause naming at least two tables, the
materialised row set is the full cross product of the first table's rows
with the SECOND table's rows only, the second table's keys prefixed with
its name; any tables after the second are resolved but contribute no
rows; the parsed ON condition text is never applied, so two SELECTs
differing only in their ON text return identical results. -/
theorem C5_join_cross_product_first_two_only :
    (∀ (t1 t2 : Table) (rest : List Table) (n0 n1 : String) (ns : List String),
      materializeRows (t1 :: t2 :: rest) (n0 :: n1 :: ns) =
        (t1.rows.map (fun r1 =>
          t2.rows.map (fun r2 => mergeRows r1 (prefixRow n1 r2)))).flatten) ∧
    (∀ db : DB,
      execute_select db "SELECT * FROM a JOIN b ON x = y".data =
        execute_select db "SELECT * FROM a JOIN b ON p = q".data) := by
  exact ⟨fun t1 t2 rest n0 n1 ns => rfl, fun db => rfl⟩

theorem validateCol_dup (rows : List Row) (row : Row) (c : Column)
    (hu : c.is_unique = true) (v : Value) (hv : alGet row c.name = some v)
    (hnn : ¬(v = Value.null))
    (hdup : ∃ r ∈ rows, pyEq (rowGetD r c.name Value.null) v = true) :
    ∃ e, validateCol rows row c = .error e := by
  cases htc : typeCheckCol c v with
  | error e =>
    refine ⟨e, ?_⟩
    simp only [validateCol, hv]
    rw [htc]
  | ok u =>
    cases u
    have hany : rows.any (fun r => pyEq (rowGetD r c.name .null) v) = true := by
      rw [List.any_eq_true]
      obtain ⟨r, hr, hpe⟩ := hdup
      exact ⟨r, hr, hpe⟩
    refine ⟨"Duplicate value for unique column '" ++ c.name ++ "'", ?_⟩
    simp only [validateCol, hv]
    rw [htc]
    simp [hu, hnn, hany]

/-- C1: when the candidate row of an INSERT carries a non-null value for
a unique column equal (under Python equality) to that column's value in
some existing row, `_execute_insert` fails during validation — which runs
before the row is appended — and returns with the catalog, the table's
row sequence, row count and indexes all unchanged (the handler result
carries the original `db`). -/
theorem C1_duplicate_unique_insert_fails (db : DB) (sql : List Char)
    (nm : String) (colsOpt : Option (List Char)) (valsStr : List Char) (t : Table)
    (hparse : parseInsert sql = some (nm, colsOpt, valsStr))
    (ht : alGet db.tables nm = some t)
    (c : Column) (hc : c ∈ t.columns) (hu : c.is_unique = true)
    (v : Value) (hnn : ¬(v = Value.null))
    (hrow : alGet (buildRow (insertColNames t colsOpt) (insertValuesOf valsStr)) c.name =
      some v)
    (hdup : ∃ r ∈ t.rows, pyEq (rowGetD r c.name Value.null) v = true) :
    ∃ e, execute_insert db sql = (db, .error e) := by
  have hiv : ∃ e, insert_values t (insertColNames t colsOpt) (insertValuesOf valsStr) =
      .error e := by
    unfold insert_values
    by_cases hlen :
        (insertColNames t colsOpt).length = (insertValuesOf valsStr).length
    · have hvr : ∃ e, validate_row t
          (buildRow (insertColNames t colsOpt) (insertValuesOf valsStr)) = .error e := by
        unfold validate_row
        exact validateCols_of_mem t.rows _ t.columns c hc
          (validateCol_dup t.rows _ c hu v hrow hnn hdup)
      obtain ⟨e, he⟩ := hvr
      refine ⟨e, ?_⟩
      rw [if_neg (by simp [hlen])]
      unfold table_insert_row
      rw [he]
    · exact ⟨"Column count doesn't match value count", by rw [if_pos (by simp [hlen])]⟩
  obtain ⟨e, he⟩ := hiv
  exact ⟨e, by simp only [execute_insert, hparse, ht, he]⟩

/-- Witness for C1: inserting a duplicate value 1 into the unique column
of `tblUniq1` fails and leaves the catalog unchanged. -/
theorem C1_witness :
    parseInsert "INSERT INTO t VALUES (1)".data = some ("t", none, "1".data) ∧
    (∃ r ∈ tblUniq1.rows, pyEq (rowGetD r "a" Value.null) (Value.int 1) = true) ∧
    (∃ e, execute_insert dbUniq1 "INSERT INTO t VALUES (1)".data =
      (dbUniq1, .error e)) :=
  ⟨by decide, by decide,
   C1_duplicate_unique_insert_fails dbUniq1 "INSERT INTO t VALUES (1)".data
     "t" none "1".data tblUniq1 (by decide) (by decide) colAUniq (by decide)
     (by decide) (Value.int 1) (by decide) (by decide) (by decide)⟩

theorem lcContains_length (pat s : List Char) (h : lcContains pat s = true) :
    pat.length ≤ s.length := by
  induction s with
  | nil =>
    have := (lcStartsWith_iff pat []).mp h
    obtain ⟨t, ht⟩ := this
    have : pat = [] := by
      cases pat
      · rfl
      · cases ht
    simp [this]
  | cons c cs ih =>
    rcases Bool.or_eq_true_iff.mp h with hs | hc
    · obtain ⟨t, ht⟩ := (lcStartsWith_iff pat (c :: cs)).mp hs
      rw [ht]
      simp
    · have := ih hc
      simp only [List.length_cons]
      omega

theorem length_dropWhile_le (p : Char → Bool) (l : List Char) :
    (l.dropWhile p).length ≤ l.length := by
  induction l with
  | nil => simp
  | cons c cs ih =>
    by_cases h : p c <;> simp [List.dropWhile_cons, h] <;> omega

theorem lcStrip_length_le (s : List Char) : (lcStrip s).length ≤ s.length := by
  unfold lcStrip
  calc ((s.dropWhile pyIsSpace).reverse.dropWhile pyIsSpace).reverse.length
      = ((s.dropWhile pyIsSpace).reverse.dropWhile pyIsSpace).length := by
        rw [List.length_reverse]
    _ ≤ (s.dropWhile pyIsSpace).reverse.length := length_dropWhile_le _ _
    _ = (s.dropWhile pyIsSpace).length := by rw [List.length_reverse]
    _ ≤ s.length := length_dropWhile_le _ _

theorem evalWhereF_succ (row : Row) (f : Nat) (cond0 : List Char) :
    evalWhereF row (f + 1) cond0 =
      (if lcContains " AND ".data (pyUpperL (lcStrip cond0)) = true then
        exAllM (evalWhereF row f) (splitWsKw "AND".data (lcStrip cond0))
      else if lcContains " OR ".data (pyUpperL (lcStrip cond0)) = true then
        exAnyM (evalWhereF row f) (splitWsKw "OR".data (lcStrip cond0))
      else evalCmp row (lcStrip cond0)) := rfl

/-- C8: a predicate of the form `A OR B AND C` (no grouping: the regex
split on `\s+AND\s+` yields the two parts `A OR B` and `C`, and the part
`A OR B` splits on `\s+OR\s+` into the atoms `A` and `B`) evaluates with
AND as the outer split: `(A OR B)` — with `any`'s short-circuit — is
conjoined with `C`; and a predicate containing only ` OR ` splits into
disjuncts combined by logical OR. -/
theorem C8_and_splits_before_or (row : Row) (full L C A B : List Char)
    (hfull : lcContains " AND ".data (pyUpperL (lcStrip full)) = true)
    (hsplit : splitWsKw "AND".data (lcStrip full) = [L, C])
    (hLand : lcContains " AND ".data (pyUpperL (lcStrip L)) = false)
    (hLor : lcContains " OR ".data (pyUpperL (lcStrip L)) = true)
    (hLsplit : splitWsKw "OR".data (lcStrip L) = [A, B])
    (hAand : lcContains " AND ".data (pyUpperL (lcStrip A)) = false)
    (hAor : lcContains " OR ".data (pyUpperL (lcStrip A)) = false)
    (hBand : lcContains " AND ".data (pyUpperL (lcStrip B)) = false)
    (hBor : lcContains " OR ".data (pyUpperL (lcStrip B)) = false)
    (hCand : lcContains " AND ".data (pyUpperL (lcStrip C)) = false)
    (hCor : lcContains " OR ".data (pyUpperL (lcStrip C)) = false) :
    (evaluate_where row full =
      (match (match evalCmp row (lcStrip A) with
              | Except.error e => Except.error e
              | Except.ok true => Except.ok true
              | Except.ok false => evalCmp row (lcStrip B)) with
       | Except.error e => Except.error e
       | Except.ok false => Except.ok false
       | Except.ok true => evalCmp row (lcStrip C))) ∧
    (∀ (s : List Char) (r : Row),
      lcContains " AND ".data (pyUpperL (lcStrip s)) = false →
      lcContains " OR ".data (pyUpperL (lcStrip s)) = true →
      evaluate_where r s =
        exAnyM (evalWhereF r s.length) (splitWsKw "OR".data (lcStrip s))) := by
  constructor
  · have h5 : 5 ≤ full.length := by
      have h1 := lcContains_length _ _ hfull
      have h3 := lcStrip_length_le full
      simp [pyUpperL] at h1
      omega
    obtain ⟨m, hm⟩ : ∃ m, full.length = m + 1 := ⟨full.length - 1, by omega⟩
    obtain ⟨k, hk⟩ : ∃ k, m = k + 1 := ⟨m - 1, by omega⟩
    have hA : evalWhereF row m A = evalCmp row (lcStrip A) := by
      rw [hk, evalWhereF_succ]
      rw [if_neg (by simp [hAand]), if_neg (by simp [hAor])]
    have hB : evalWhereF row m B = evalCmp row (lcStrip B) := by
      rw [hk, evalWhereF_succ]
      rw [if_neg (by simp [hBand]), if_neg (by simp [hBor])]
    have hL2 : evalWhereF row (m + 1) L =
        (match evalCmp row (lcStrip A) with
         | Except.error e => (Except.error e : Except String Bool)
         | Except.ok true => Except.ok true
         | Except.ok false => evalCmp row (lcStrip B)) := by
      rw [evalWhereF_succ]
      rw [if_neg (by simp [hLand]), if_pos hLor, hLsplit]
      simp only [exAnyM]
      rw [hA, hB]
      cases evalCmp row (lcStrip A) with
      | error e => rfl
      | ok a =>
        cases a
        · cases evalCmp row (lcStrip B) with
          | error e => rfl
          | ok b => cases b <;> rfl
        · rfl
    have hC2 : evalWhereF row (m + 1) C = evalCmp row (lcStrip C) := by
      rw [evalWhereF_succ]
      rw [if_neg (by simp [hCand]), if_neg (by simp [hCor])]
    unfold evaluate_where
    rw [hm, evalWhereF_succ]
    rw [if_pos hfull, hsplit]
    simp only [exAllM]
    rw [hL2, hC2]
    cases evalCmp row (lcStrip A) with
    | error e => rfl
    | ok a =>
      cases a
      · cases evalCmp row (lcStrip B) with
        | error e => rfl
        | ok b =>
          cases b
          · rfl
          · cases evalCmp row (lcStrip C) with
            | error e => rfl
            | ok c => cases c <;> rfl
      · cases evalCmp row (lcStrip C) with
        | error e => rfl
        | ok c => cases c <;> rfl
  · intro s r hand hor
    unfold evaluate_where
    rw [evalWhereF_succ]
    rw [if_neg (by simp [hand]), if_pos hor]

/-- Witness for C8: the mixed predicate `a = 1 OR b = 3 AND b = 2`
against the row `{a: 1, b: 2}` takes the AND-outer shape. -/
theorem C8_witness :
    splitWsKw "AND".data (lcStrip "a = 1 OR b = 3 AND b = 2".data) =
      ["a = 1 OR b = 3".data, "b = 2".data] ∧
    evaluate_where [("a", Value.int 1), ("b", Value.int 2)]
        "a = 1 OR b = 3 AND b = 2".data =
      (match (match evalCmp [("a", Value.int 1), ("b", Value.int 2)]
                (lcStrip "a = 1".data) with
              | Except.error e => Except.error e
              | Except.ok true => Except.ok true
              | Except.ok false =>
                evalCmp [("a", Value.int 1), ("b", Value.int 2)]
                  (lcStrip "b = 3".data)) with
       | Except.error e => Except.error e
       | Except.ok false => Except.ok false
       | Except.ok true =>
         evalCmp [("a", Value.int 1), ("b", Value.int 2)] (lcStrip "b = 2".data)) :=
  ⟨by decide,
   (C8_and_splits_before_or [("a", Value.int 1), ("b", Value.int 2)]
      "a = 1 OR b = 3 AND b = 2".data "a = 1 OR b = 3".data "b = 2".data
      "a = 1".data "b = 3".data (by decide) (by decide) (by decide) (by decide)
      (by decide) (by decide) (by decide) (by decide) (by decide) (by decide)
      (by decide)).1⟩

theorem pyEq_symm (a b : Value) : pyEq a b = pyEq b a := by
  cases a <;> cases b <;> simp [pyEq, toNum, eq_comm]

theorem pyEq_trans (a b c : Value) (h1 : pyEq a b = true) (h2 : pyEq b c = true) :
    pyEq a c = true := by
  cases a <;> cases b <;> cases c <;> simp_all [pyEq, toNum]

theorem pyEqList_symm (k1 k2 : List Value) : pyEqList k1 k2 = pyEqList k2 k1 := by
  induction k1 generalizing k2 with
  | nil => cases k2 <;> simp [pyEqList]
  | cons a as ih =>
    cases k2 with
    | nil => simp [pyEqList]
    | cons b bs => simp [pyEqList, pyEq_symm a b, ih bs]

theorem pyEqList_trans (k1 k2 k3 : List Value) (h1 : pyEqList k1 k2 = true)
    (h2 : pyEqList k2 k3 = true) : pyEqList k1 k3 = true := by
  induction k1 generalizing k2 k3 with
  | nil =>
    cases k2 with
    | nil => exact h2
    | cons b bs => cases h1
  | cons a as ih =>
    cases k2 with
    | nil => cases h1
    | cons b bs =>
      cases k3 with
      | nil => cases h2
      | cons c cs =>
        simp only [pyEqList, Bool.and_eq_true] at h1 h2 ⊢
        exact ⟨pyEq_trans a b c h1.1 h2.1, ih bs cs h1.2 h2.2⟩

theorem entLookup_entAppend (es : List (List Value × List Nat)) (k : List Value)
    (i : Nat) (q : List Value) :
    entLookup (entAppend es k i) q =
      if pyEqList q k then entLookup es q ++ [i] else entLookup es q := by
  induction es with
  | nil =>
    simp only [entAppend, entLookup]
    by_cases hq : pyEqList q k = true
    · rw [if_pos hq, if_pos (by rw [pyEqList_symm]; exact hq)]
      rfl
    · rw [if_neg hq, if_neg (by rw [pyEqList_symm]; intro h; exact hq h)]
  | cons p rest ih =>
    obtain ⟨k0, l⟩ := p
    by_cases h0 : pyEqList k0 k = true
    · simp only [entAppend, if_pos h0, entLookup]
      by_cases hq0 : pyEqList k0 q = true
      · have hqk : pyEqList q k = true :=
          pyEqList_trans q k0 k (by rw [pyEqList_symm]; exact hq0) h0
      
        rw [if_pos hq0, if_pos hqk, if_pos hq0]
      · have hqk : ¬(pyEqList q k = true) := by
          intro hqk
          exact hq0 (pyEqList_trans k0 k q h0 (by rw [pyEqList_symm]; exact hqk))
        rw [if_neg hq0, if_neg hqk, if_neg hq0]
    · simp only [entAppend, if_neg h0, entLookup]
      by_cases hq0 : pyEqList k0 q = true
      · have hqk : ¬(pyEqList q k = true) := by
          intro hqk
          exact h0 (pyEqList_trans k0 q k hq0 hqk)
        rw [if_pos hq0, if_neg hqk, if_pos hq0]
      · rw [if_neg hq0, ih, if_neg hq0]

theorem rebuildAux_append (cols : List String) (rs : List Row) (r : Row) :
    ∀ (i : Nat) (es : List (List Value × List Nat)),
      rebuildAux cols (rs ++ [r]) i es =
        entAppend (rebuildAux cols rs i es) (rowKeyF r cols) (i + rs.length) := by
  induction rs with
  | nil =>
    intro i es
    simp [rebuildAux]
  | cons r0 rs0 ih =>
    intro i es
    simp only [List.cons_append, rebuildAux, List.append_eq]
    rw [ih (i + 1)]
    have harith : i + 1 + rs0.length = i + (r0 :: rs0).length := by
      simp only [List.length_cons]
      omega
    rw [harith]

theorem rebuildEntries_append (rows : List Row) (r : Row) (cols : List String) :
    rebuildEntries (rows ++ [r]) cols =
      entAppend (rebuildEntries rows cols) (rowKeyF r cols) rows.length := by
  unfold rebuildEntries
  rw [rebuildAux_append]
  simp

theorem entLookup_rebuild_mem (rows : List Row) (cols : List String) (k : List Value)
    (p : Nat) :
    p ∈ entLookup (rebuildEntries rows cols) k ↔
      ∃ j, ∃ hj : j < rows.length,
        pyEqList (rowKeyF (rows.get ⟨j, hj⟩) cols) k = true ∧ p = j := by
  induction rows using List.reverseRecOn with
  | nil => simp [rebuildEntries, rebuildAux, entLookup]
  | append_singleton rs r ih =>
    rw [rebuildEntries_append, entLookup_entAppend]
    have hlen : rs.length < (rs ++ [r]).length := by simp
    have hgetr : (rs ++ [r]).get ⟨rs.length, hlen⟩ = r := by
      simp [List.get_eq_getElem, List.getElem_append_right]
    have hgetl : ∀ (j : Nat) (hj : j < rs.length) (hj2 : j < (rs ++ [r]).length),
        (rs ++ [r]).get ⟨j, hj2⟩ = rs.get ⟨j, hj⟩ := by
      intro j hj hj2
      simp [List.get_eq_getElem, List.getElem_append_left, hj]
    by_cases hk : pyEqList k (rowKeyF r cols) = true
    · rw [if_pos hk]
      simp only [List.mem_append, List.mem_singleton, ih]
      constructor
      · rintro (⟨j, hj, hpe, hpj⟩ | rfl)
        · have hj2 : j < (rs ++ [r]).length := by simp; omega
          refine ⟨j, hj2, ?_, hpj⟩
          rw [hgetl j hj hj2]
          exact hpe
        · refine ⟨rs.length, hlen, ?_, rfl⟩
          rw [hgetr, pyEqList_symm]
          exact hk
      · rintro ⟨j, hj, hpe, hpj⟩
        by_cases hjl : j < rs.length
        · left
          refine ⟨j, hjl, ?_, hpj⟩
          rw [← hgetl j hjl hj]
          exact hpe
        · right
          have hje : j = rs.length := by
            have := hj
            simp only [List.length_append, List.length_singleton] at this
            omega
          rw [hpj, hje]
    · rw [if_neg hk]
      rw [ih]
      constructor
      · rintro ⟨j, hj, hpe, hpj⟩
        have hj2 : j < (rs ++ [r]).length := by simp; omega
        refine ⟨j, hj2, ?_, hpj⟩
        rw [hgetl j hj hj2]
        exact hpe
      · rintro ⟨j, hj, hpe, hpj⟩
        have hjl : j < rs.length := by
          by_contra hno
          have hjeq : j = rs.length := by
            have := hj
            simp only [List.length_append, List.length_singleton] at this
            omega
          subst hjeq
          rw [hgetr] at hpe
          rw [pyEqList_symm] at hpe
          exact hk hpe
        refine ⟨j, hjl, ?_, hpj⟩
        rw [← hgetl j hjl hj]
        exact hpe

theorem rebuildTableIndexes_consistent (t : Table) :
    tableConsistent (rebuildTableIndexes t) := by
  intro ni hni
  unfold rebuildTableIndexes at hni
  simp only [List.mem_map] at hni
  obtain ⟨ni0, _, rfl⟩ := hni
  unfold idxConsistent rebuild_index
  rfl

theorem insert_consistent (t : Table) (row : Row) (t2 : Table)
    (hc : tableConsistent t) (h : table_insert_row t row = .ok t2) :
    tableConsistent t2 := by
  unfold table_insert_row at h
  cases hv : validate_row t row with
  | error e => rw [hv] at h; cases h
  | ok u =>
    rw [hv] at h
    injection h with h
    subst h
    intro ni hni
    simp only [List.mem_map] at hni
    obtain ⟨ni0, hni0, rfl⟩ := hni
    unfold idxConsistent
    simp only
    rw [rebuildEntries_append]
    rw [hc ni0 hni0]

theorem updateSweep_cnt_ge (cols : List Column) (updates : List (String × Value))
    (wc : Option (List Char)) :
    ∀ (rem i : Nat) (rows : List Row) (cnt : Nat),
      cnt ≤ (updateSweep cols updates wc rem i rows cnt).2.1 := by
  intro rem
  induction rem with
  | zero => intro i rows cnt; simp [updateSweep]
  | succ rem ih =>
    intro i rows cnt
    unfold updateSweep
    cases hget : rows.get? i with
    | none => simp
    | some row =>
      simp only
      cases hcond : whereTest wc row with
      | error e => simp
      | ok b =>
        cases b with
        | false => simpa using ih (i + 1) rows cnt
        | true =>
          cases hchk : checkUpdateCols cols rows i updates with
          | some e => simp
          | none =>
            simp only
            calc cnt ≤ cnt + 1 := by omega
              _ ≤ _ := ih (i + 1) (rows.set i (applyUpdates row updates)) (cnt + 1)

theorem updateSweep_rows_of_no_progress (cols : List Column)
    (updates : List (String × Value)) (wc : Option (List Char)) :
    ∀ (rem i : Nat) (rows : List Row) (cnt : Nat),
      (updateSweep cols updates wc rem i rows cnt).2.1 = cnt →
      (updateSweep cols updates wc rem i rows cnt).1 = rows := by
  intro rem
  induction rem with
  | zero => intro i rows cnt _; simp [updateSweep]
  | succ rem ih =>
    intro i rows cnt hcnt
    unfold updateSweep at hcnt ⊢
    cases hget : rows.get? i with
    | none => simp
    | some row =>
      rw [hget] at hcnt
      simp only at hcnt ⊢
      cases hcond : whereTest wc row with
      | error e => simp [hcond]
      | ok b =>
        rw [hcond] at hcnt
        cases b with
        | false =>
          simp only [hcond] at hcnt ⊢
          exact ih (i + 1) rows cnt hcnt
        | true =>
          cases hchk : checkUpdateCols cols rows i updates with
          | some e => simp [hcond, hchk]
          | none =>
            exfalso
            simp only [hchk] at hcnt
            have := updateSweep_cnt_ge cols updates wc rem (i + 1)
              (rows.set i (applyUpdates row updates)) (cnt + 1)
            omega

theorem update_consistent (t : Table) (updates : List (String × Value))
    (wc : Option (List Char)) (t2 : Table) (cnt : Nat)
    (hc : tableConsistent t) (h : update_table t updates wc = (t2, cnt, none)) :
    tableConsistent t2 := by
  simp only [update_table] at h
  cases herr : (updateSweep t.columns updates wc t.rows.length 0 t.rows 0).2.2 with
  | some e =>
    simp only [herr] at h
    injection h with h1 h2
    injection h2 with h2 h3
    cases h3
  | none =>
    simp only [herr] at h
    by_cases hcnt : 0 < (updateSweep t.columns updates wc t.rows.length 0 t.rows 0).2.1
    · rw [if_pos hcnt] at h
      injection h with h1 h2
      subst h1
      exact rebuildTableIndexes_consistent _
    · rw [if_neg hcnt] at h
      injection h with h1 h2
      subst h1
      have hzero : (updateSweep t.columns updates wc t.rows.length 0 t.rows 0).2.1 = 0 := by
        omega
      have hrows := updateSweep_rows_of_no_progress t.columns updates wc
        t.rows.length 0 t.rows 0 hzero
      intro ni hni
      unfold idxConsistent
      simp only at hni ⊢
      rw [hrows]
      exact hc ni hni

theorem delete_consistent (t : Table) (wc : Option (List Char)) (t2 : Table) (cnt : Nat)
    (hc : tableConsistent t) (h : delete_table t wc = (t2, cnt, none)) :
    tableConsistent t2 := by
  simp only [delete_table] at h
  cases hcm : collectMatches wc t.rows.enum with
  | error e =>
    simp only [hcm] at h
    injection h with h1 h2
    injection h2 with h2 h3
    cases h3
  | ok idxs =>
    simp only [hcm] at h
    by_cases hemp : idxs.isEmpty = true
    · rw [if_pos hemp] at h
      injection h with h1 h2
      subst h1
      exact hc
    · rw [if_neg hemp] at h
      injection h with h1 h2
      subst h1
      exact rebuildTableIndexes_consistent _

theorem applyTableOp_consistent (t : Table) (op : TableOp) (t2 : Table)
    (hc : tableConsistent t) (h : applyTableOp t op = (t2, none)) :
    tableConsistent t2 := by
  cases op with
  | ins cns vs =>
    simp only [applyTableOp] at h
    cases hiv : insert_values t cns vs with
    | ok t3 =>
      simp only [hiv] at h
      injection h with h1 h2
      subst h1
      simp only [insert_values] at hiv
      by_cases hlen : ((!decide (cns.length = vs.length)) = true)
      · rw [if_pos hlen] at hiv; cases hiv
      · rw [if_neg hlen] at hiv
        exact insert_consistent t _ _ hc hiv
    | error e =>
      simp only [hiv] at h
      injection h with h1 h2
      cases h2
  | upd us wc =>
    simp only [applyTableOp] at h
    have hsplit : update_table t us wc =
        ((update_table t us wc).1, (update_table t us wc).2.1,
          (update_table t us wc).2.2) := rfl
    cases he : (update_table t us wc).2.2 with
    | some e =>
      simp only [he] at h
      injection h with h1 h2
      cases h2
    | none =>
      simp only [he] at h
      injection h with h1 _
      subst h1
      exact update_consistent t us wc _ _ hc (by rw [hsplit, he])
  | del wc =>
    simp only [applyTableOp] at h
    have hsplit : delete_table t wc =
        ((delete_table t wc).1, (delete_table t wc).2.1,
          (delete_table t wc).2.2) := rfl
    cases he : (delete_table t wc).2.2 with
    | some e =>
      simp only [he] at h
      injection h with h1 h2
      cases h2
    | none =>
      simp only [he] at h
      injection h with h1 _
      subst h1
      exact delete_consistent t wc _ _ hc (by rw [hsplit, he])

theorem applyTableOps_consistent (ops : List TableOp) :
    ∀ (t : Table), tableConsistent t → opsOk t ops = true →
      tableConsistent (applyTableOps t ops) := by
  induction ops with
  | nil => intro t h0 _; exact h0
  | cons op ops ih =>
    intro t h0 hok
    simp only [applyTableOps]
    simp only [opsOk] at hok
    cases hop : applyTableOp t op with
    | mk t2 err =>
      cases err with
      | none =>
        simp only [hop] at hok ⊢
        exact ih t2 (applyTableOp_consistent t op t2 h0 hop) hok
      | some e =>
        simp only [hop] at hok
        cases hok

/-- C2 counterexample: the UPDATE statement `UPDATE u SET a = 5` on a
table with two rows and a unique column raises mid-sweep after mutating
row 0 in place, and the indexes are never rebuilt: the index still maps
key (1,) to position 0 although row 0 now holds a = 5 — a stale entry
left behind by a statement of the claimed INSERT/UPDATE/DELETE
vocabulary. -/
theorem C2_counterexample :
    (execute_sql stUniq2 "UPDATE u SET a = 5").2 =
      .error "Duplicate value for unique column 'a'" ∧
    ((alGet (execute_sql stUniq2 "UPDATE u SET a = 5").1.db.tables "u").getD
        (mkTable "" [])).rows =
      [[("a", Value.int 5), ("b", Value.int 1)], [("a", Value.int 2), ("b", Value.int 2)]] ∧
    alGet ((alGet (execute_sql stUniq2 "UPDATE u SET a = 5").1.db.tables "u").getD
        (mkTable "" [])).indexes "__unique_a" =
      some ⟨["a"], [([Value.int 1], [0]), ([Value.int 2], [1])]⟩ ∧
    ¬tableConsistent ((alGet (execute_sql stUniq2 "UPDATE u SET a = 5").1.db.tables "u").getD
        (mkTable "" [])) := by
  decide

/-- C2 (amended): starting from a table whose indexes are consistent,
after any sequence of INSERT, UPDATE and DELETE operations EACH OF WHICH
COMPLETES WITHOUT ERROR, every index of the table is consistent: its
entry dict equals a full rebuild over the final rows, and the entry for
a key tuple k contains a position p precisely when p is a valid row
position whose (present-column-filtered) key tuple equals k under Python
tuple equality — no stale and no missing entries. -/
theorem C2_index_consistency_of_ok_ops (ops : List TableOp) (t : Table)
    (h0 : tableConsistent t) (hok : opsOk t ops = true) :
    tableConsistent (applyTableOps t ops) ∧
    ∀ ni ∈ (applyTableOps t ops).indexes, ∀ (k : List Value) (p : Nat),
      p ∈ entLookup ni.2.entries k ↔
        ∃ j, ∃ hj : j < (applyTableOps t ops).rows.length,
          pyEqList (rowKeyF ((applyTableOps t ops).rows.get ⟨j, hj⟩)
            ni.2.column_names) k = true ∧ p = j := by
  have hcons := applyTableOps_consistent ops t h0 hok
  refine ⟨hcons, ?_⟩
  intro ni hni k p
  have hidx := hcons ni hni
  unfold idxConsistent at hidx
  rw [hidx]
  exact entLookup_rebuild_mem _ _ _ _

/-- Witness for C2 on a concrete consistent table and an error-free
INSERT/DELETE sequence. -/
theorem C2_witness :
    tableConsistent tblUniq1 ∧
    opsOk tblUniq1 [TableOp.ins ["a"] [Value.int 2],
      TableOp.del (some "a = 1".data)] = true ∧
    tableConsistent (applyTableOps tblUniq1 [TableOp.ins ["a"] [Value.int 2],
      TableOp.del (some "a = 1".data)]) :=
  ⟨by decide, by decide,
   (C2_index_consistency_of_ok_ops
      [TableOp.ins ["a"] [Value.int 2], TableOp.del (some "a = 1".data)]
      tblUniq1 (by decide) (by decide)).1⟩
